import Mathlib

/-!
Shallow embedding of the AnveshAI video generator core: the DSL front-end
(video_engine/dsl_parser.py) and the animation back-end
(video_engine/renderer.py).

Modelling conventions
* Python strings are `List Char`; the string methods used by the source
  (strip, split, upper, lower) are modelled over their ASCII behaviour.
* Python `int` is `Int`; Python `float` is modelled by exact rational
  arithmetic over `Rat`.  Non-finite float literals (inf, nan) are outside
  the model and read as conversion failures.  Where binary64 rounding is
  observable in a claim (the watermark luminance threshold) the IEEE-754
  double rounding is emulated exactly over `Rat` (`roundB64`), so that the
  embedded comparison agrees with CPython bit for bit.
* Python dicts keyed by strings become total functions `List Char → Option α`
  updated pointwise; assignment replaces the previous binding for the key,
  exactly as in the source.
* Fallible code returns `Except DSLError`; the structured `DSLError`
  constructors stand for the distinct DSLParseError / DSLValidationError
  messages raised by the source.
* `constants.py` is imported by the source but is not present in the source
  tree; its values are modelled from the spec (each such definition says so).
-/

abbrev Str := List Char

/-- ASCII whitespace stripped by Python str.strip(). -/
def pyIsSpace (c : Char) : Bool :=
  c = ' ' || c = '\t' || c = '\n' || c = '\r' || c = '\x0B' || c = '\x0C'

/-- Python str.strip(): drop leading and trailing whitespace. -/
def pyStrip (s : Str) : Str :=
  ((s.dropWhile pyIsSpace).reverse.dropWhile pyIsSpace).reverse

/-- Python str.upper(), ASCII range. -/
def upperTok (s : Str) : Str := s.map Char.toUpper

/-- Python str.lower(), ASCII range. -/
def lowerTok (s : Str) : Str := s.map Char.toLower

/-- tokenize_line's character loop from dsl_parser.py: `cur` is the running
token buffer, `inq` the quote flag, `acc` the emitted tokens. -/
def tokenizeGo : Str → Bool → Str → List Str → List Str
  | [], _, cur, acc => if cur.isEmpty then acc else acc ++ [cur]
  | c :: rest, inq, cur, acc =>
    if c = '\"' && !inq then tokenizeGo rest true cur acc
    else if c = '\"' && inq then tokenizeGo rest false [] (acc ++ [cur])
    else if c = ' ' && !inq then
      if cur.isEmpty then tokenizeGo rest false [] acc
      else tokenizeGo rest false [] (acc ++ [cur])
    else tokenizeGo rest inq (cur ++ [c]) acc

/-- tokenize_line from dsl_parser.py. -/
def tokenize_line (line : Str) : List Str := tokenizeGo line false [] []

/-- One CPython numeric-literal digit group: digits with single underscores
between digits (as accepted by int()/float()). -/
def digitGroupGo (prev : Char) : Str → Bool
  | [] => prev.isDigit
  | c :: rest => (if c = '_' then prev.isDigit else c.isDigit) && digitGroupGo c rest

def digitGroupOk : Str → Bool
  | [] => false
  | c :: rest => c.isDigit && digitGroupGo c rest

/-- Numeric value of a digit group, skipping underscores. -/
def digitsVal (s : Str) : Nat :=
  s.foldl (fun a c => if c = '_' then a else a * 10 + (c.toNat - 48)) 0

/-- Python int(str) on ASCII decimal literals: optional surrounding
whitespace, optional sign, digit group.  None models ValueError. -/
def pyInt? (s : Str) : Option Int :=
  match pyStrip s with
  | '+' :: r => if digitGroupOk r then some (digitsVal r : Int) else none
  | '-' :: r => if digitGroupOk r then some (-(digitsVal r : Int)) else none
  | r => if digitGroupOk r then some (digitsVal r : Int) else none

/-- Split at the first exponent marker of a float literal. -/
def splitExp : Str → Str × Option Str
  | [] => ([], none)
  | c :: r =>
    if c = 'e' || c = 'E' then ([], some r)
    else
      let p := splitExp r
      (c :: p.1, p.2)

/-- Split at the first dot of a float literal. -/
def splitDot : Str → Str × Option Str
  | [] => ([], none)
  | c :: r =>
    if c = '.' then ([], some r)
    else
      let p := splitDot r
      (c :: p.1, p.2)

/-- Fractional value of a digit group placed after the dot. -/
def fracVal (s : Str) : Rat :=
  (digitsVal s : Rat) / (10 : Rat) ^ (s.filter Char.isDigit).length

/-- Mantissa (the part before any exponent) of a float literal. -/
def parseMant (s : Str) : Option Rat :=
  let p := splitDot s
  match p.2 with
  | none => if digitGroupOk p.1 then some (digitsVal p.1 : Rat) else none
  | some fp =>
    if p.1 = [] then
      if digitGroupOk fp then some (fracVal fp) else none
    else if fp = [] then
      if digitGroupOk p.1 then some (digitsVal p.1 : Rat) else none
    else
      if digitGroupOk p.1 && digitGroupOk fp then
        some ((digitsVal p.1 : Rat) + fracVal fp)
      else none

def parseExpPart : Str → Option Int
  | '+' :: r => if digitGroupOk r then some (digitsVal r : Int) else none
  | '-' :: r => if digitGroupOk r then some (-(digitsVal r : Int)) else none
  | r => if digitGroupOk r then some (digitsVal r : Int) else none

/-- Python float(str) on finite ASCII decimal literals, as an exact rational.
None models ValueError; inf and nan are outside the model. -/
def pyFloat? (s : Str) : Option Rat :=
  let t := pyStrip s
  let sgn : Bool × Str :=
    match t with
    | '+' :: r => (false, r)
    | '-' :: r => (true, r)
    | r => (false, r)
  let p := splitExp sgn.2
  match parseMant p.1 with
  | none => none
  | some mv =>
    let ev? : Option Int :=
      match p.2 with
      | none => some 0
      | some es => parseExpPart es
    match ev? with
    | none => none
    | some ev =>
      let base := if 0 ≤ ev then mv * (10 : Rat) ^ ev.toNat else mv / (10 : Rat) ^ (-ev).toNat
      some (if sgn.1 then -base else base)

/-- Python int(float): truncation toward zero. -/
def pyTrunc (q : Rat) : Int := if 0 ≤ q then q.floor else q.ceil

/-- Modelled from the spec: constants.py is absent from the source tree; §6
gives the grammar's command set. -/
def ALLOWED_COMMANDS : List Str :=
  ["BACKGROUND".data, "FPS".data, "DURATION".data, "TEXT".data, "SHAPE".data, "MOVE".data]

/-- Modelled from the spec: constants.py is absent; §6 allows CIRCLE and RECT. -/
def ALLOWED_SHAPE_TYPES : List Str := ["CIRCLE".data, "RECT".data]

/-- Modelled from the spec: constants.py is absent; §6 lists the three easing
names. -/
def ALLOWED_EASE_TYPES : List Str := ["linear".data, "ease-in".data, "ease-out".data]

/-- Modelled from the spec: constants.py is absent; §6 caps objects at 50. -/
def MAX_OBJECTS : Nat := 50

/-- Modelled from the spec: constants.py is absent; §6 caps duration at 6 s. -/
def MAX_DURATION : Rat := 6

/-- Modelled from the spec: constants.py is absent; §6 caps fps at 24. -/
def MAX_FPS : Int := 24

/-- Modelled from the spec: constants.py is absent; §6 caps total frames at 300. -/
def MAX_FRAMES : Int := 300

/-- Modelled from the spec: constants.py is absent; §6 caps the canvas at 1280×720. -/
def MAX_WIDTH : Int := 1280

/-- Modelled from the spec: constants.py is absent; §6 caps the canvas at 1280×720. -/
def MAX_HEIGHT : Int := 720

/-- A hex digit of the color pattern. -/
def isHexChar (c : Char) : Bool :=
  c.isDigit || ('A' ≤ c && c ≤ 'F') || ('a' ≤ c && c ≤ 'f')

/-- Consume exactly n hex digits, returning the remainder. -/
def eatHex : Nat → Str → Option Str
  | 0, r => some r
  | _ + 1, [] => none
  | n + 1, c :: r => if isHexChar c then eatHex n r else none

/-- validate_color from dsl_parser.py: bool(re.match(pattern, color)) with
VALID_COLORS_PATTERN modelled from the spec as hash-then-six-hex-digits
anchored at both ends.  CPython's dollar anchor matches at the end of the
string or just before one final newline, which this compiled form keeps. -/
def validate_color (s : Str) : Bool :=
  match s with
  | [] => false
  | c :: r =>
    if c = '#' then
      match eatHex 6 r with
      | some rest => if rest = [] then true else if rest = ['\n'] then true else false
      | none => false
    else false

/-- The spec's words for the color invariant: the string fully matches the
pattern — a hash followed by exactly six hexadecimal digits and nothing
before or after. -/
def colorSpecFullMatch (s : Str) : Bool :=
  s.length = 7 && s.head? = some '#' && (s.drop 1).all isHexChar

/-- Value of one hex digit (0 for other characters; CPython would raise
ValueError there, which the validated colors reaching the renderer rule out). -/
def hexDigitVal (c : Char) : Int :=
  if c.isDigit then (c.toNat : Int) - 48
  else if 'a' ≤ c && c ≤ 'f' then (c.toNat : Int) - 87
  else if 'A' ≤ c && c ≤ 'F' then (c.toNat : Int) - 55
  else 0

def hexPairVal (s : Str) : Int := s.foldl (fun a c => a * 16 + hexDigitVal c) 0

/-- hex_to_rgb from dsl_parser.py: strip leading hash marks, read three
two-digit slices. -/
def hex_to_rgb (s : Str) : Int × Int × Int :=
  let h := s.dropWhile (· = '#')
  (hexPairVal (h.take 2), hexPairVal ((h.drop 2).take 2), hexPairVal ((h.drop 4).take 2))

/-- TextCommand dataclass from dsl_parser.py. -/
structure TextCommand where
  text : Str
  x : Int
  y : Int
  size : Int := 32
  color : Str := "#FFFFFF".data
  move_to : Option (Int × Int) := none
  move_duration : Rat := 0
  obj_id : Str := []
deriving DecidableEq

/-- ShapeCommand dataclass from dsl_parser.py. -/
structure ShapeCommand where
  shape_type : Str
  obj_id : Str
  x : Int
  y : Int
  color : Str := "#FFFFFF".data
  radius : Int := 20
  width : Int := 50
  height : Int := 50
  move_to : Option (Int × Int) := none
  move_duration : Rat := 0
  ease : Str := "linear".data
deriving DecidableEq

/-- MoveCommand dataclass from dsl_parser.py. -/
structure MoveCommand where
  obj_id : Str
  to_x : Int
  to_y : Int
  duration : Rat
  ease : Str := "linear".data
deriving DecidableEq

/-- The two object kinds ever appended to AnimationSpec.objects. -/
inductive PyObj where
  | text (t : TextCommand)
  | shape (s : ShapeCommand)
deriving DecidableEq

/-- AnimationSpec dataclass from dsl_parser.py, with its field defaults. -/
structure AnimationSpec where
  background : Str := "#202020".data
  fps : Int := 24
  duration : Rat := 3
  objects : List PyObj := []
  moves : List MoveCommand := []
deriving DecidableEq

/-- Structured stand-ins for the DSLParseError / DSLValidationError messages
raised by dsl_parser.py; each constructor is one distinct message shape and
carries the data the message names. -/
inductive DSLError where
  | unknownCommand (line : Nat) (cmd : Str)
  | invalidColor (line : Nat) (color : Str)
  | fpsOutOfRange (line : Nat)
  | durationOutOfRange (line : Nat)
  | tooManyObjects (line : Nat)
  | unknownShapeType (line : Nat) (t : Str)
  | textRequiresContent (line : Nat)
  | shapeRequiresType (line : Nat)
  | moveRequiresArgs (line : Nat)
  | invalidSyntax (line : Nat)
  | tooManyFrames (total : Int)
deriving DecidableEq

/-- clamp_coord from dsl_parser.py. -/
def clamp_coord (v maxVal : Int) : Int := max 0 (min v maxVal)

/-- Coordinate-token handling shared by AT / MOVE TO / TO clauses: split on
comma; exactly two parts convert (ValueError models as error) and clamp;
any other arity is silently ignored. -/
def coordPair? (arg : Str) : Except Unit (Option (Int × Int)) :=
  match arg.splitOn ',' with
  | [c0, c1] =>
    match pyInt? c0, pyInt? c1 with
    | some vx, some vy => .ok (some (clamp_coord vx MAX_WIDTH, clamp_coord vy MAX_HEIGHT))
    | _, _ => .error ()
  | _ => .ok none

/-- Keyword scan of parse_text_command, recursing on the unread suffix of the
token list (the Python loop only ever moves the index forward and reads at
offsets 0, 1, 2, so the suffix view is exact). -/
def textLoop (ln : Nat) : List Str → TextCommand → Except DSLError TextCommand
  | [], cmd => .ok cmd
  | kw0 :: rest, cmd =>
    if upperTok kw0 = "AT".data then
      match rest with
      | arg :: rest2 =>
        match coordPair? arg with
        | .error _ => .error (.invalidSyntax ln)
        | .ok (some p) => textLoop ln rest2 { cmd with x := p.1, y := p.2 }
        | .ok none => textLoop ln rest2 cmd
      | [] => .ok cmd
    else if upperTok kw0 = "SIZE".data then
      match rest with
      | arg :: rest2 =>
        match pyInt? arg with
        | some n => textLoop ln rest2 { cmd with size := min (max n 8) 200 }
        | none => .error (.invalidSyntax ln)
      | [] => .ok cmd
    else if upperTok kw0 = "COLOR".data then
      match rest with
      | arg :: rest2 =>
        if validate_color arg then textLoop ln rest2 { cmd with color := arg }
        else .error (.invalidColor ln arg)
      | [] => .ok cmd
    else if upperTok kw0 = "ID".data then
      match rest with
      | arg :: rest2 => textLoop ln rest2 { cmd with obj_id := arg }
      | [] => .ok cmd
    else if upperTok kw0 = "MOVE".data then
      match rest with
      | a1 :: a2 :: rest3 =>
        if upperTok a1 = "TO".data then
          match coordPair? a2 with
          | .error _ => .error (.invalidSyntax ln)
          | .ok (some p) => textLoop ln rest3 { cmd with move_to := some p }
          | .ok none => textLoop ln rest3 cmd
        else textLoop ln (a1 :: a2 :: rest3) cmd
      | rest1 => textLoop ln rest1 cmd
    else if upperTok kw0 = "DUR".data then
      match rest with
      | arg :: rest2 =>
        match pyFloat? arg with
        | some d => textLoop ln rest2 { cmd with move_duration := max 0 (min d MAX_DURATION) }
        | none => .error (.invalidSyntax ln)
      | [] => .ok cmd
    else textLoop ln rest cmd

/-- parse_text_command from dsl_parser.py. -/
def parse_text_command (tokens : List Str) (ln : Nat) : Except DSLError TextCommand :=
  match tokens with
  | [] => .error (.textRequiresContent ln)
  | text :: rest =>
    textLoop ln rest
      { text := text, x := 100, y := 100, obj_id := "text_".data ++ Nat.toDigits 10 ln }

/-- Keyword scan of parse_shape_command, suffix view as for textLoop. -/
def shapeLoop (ln : Nat) : List Str → ShapeCommand → Except DSLError ShapeCommand
  | [], cmd => .ok cmd
  | kw0 :: rest, cmd =>
    if upperTok kw0 = "ID".data then
      match rest with
      | arg :: rest2 => shapeLoop ln rest2 { cmd with obj_id := arg }
      | [] => .ok cmd
    else if upperTok kw0 = "AT".data then
      match rest with
      | arg :: rest2 =>
        match coordPair? arg with
        | .error _ => .error (.invalidSyntax ln)
        | .ok (some p) => shapeLoop ln rest2 { cmd with x := p.1, y := p.2 }
        | .ok none => shapeLoop ln rest2 cmd
      | [] => .ok cmd
    else if upperTok kw0 = "RADIUS".data then
      match rest with
      | arg :: rest2 =>
        match pyInt? arg with
        | some n => shapeLoop ln rest2 { cmd with radius := min (max n 1) 500 }
        | none => .error (.invalidSyntax ln)
      | [] => .ok cmd
    else if upperTok kw0 = "WIDTH".data then
      match rest with
      | arg :: rest2 =>
        match pyInt? arg with
        | some n => shapeLoop ln rest2 { cmd with width := min (max n 1) MAX_WIDTH }
        | none => .error (.invalidSyntax ln)
      | [] => .ok cmd
    else if upperTok kw0 = "HEIGHT".data then
      match rest with
      | arg :: rest2 =>
        match pyInt? arg with
        | some n => shapeLoop ln rest2 { cmd with height := min (max n 1) MAX_HEIGHT }
        | none => .error (.invalidSyntax ln)
      | [] => .ok cmd
    else if upperTok kw0 = "COLOR".data then
      match rest with
      | arg :: rest2 =>
        if validate_color arg then shapeLoop ln rest2 { cmd with color := arg }
        else .error (.invalidColor ln arg)
      | [] => .ok cmd
    else if upperTok kw0 = "MOVE".data then
      match rest with
      | a1 :: a2 :: rest3 =>
        if upperTok a1 = "TO".data then
          match coordPair? a2 with
          | .error _ => .error (.invalidSyntax ln)
          | .ok (some p) => shapeLoop ln rest3 { cmd with move_to := some p }
          | .ok none => shapeLoop ln rest3 cmd
        else shapeLoop ln (a1 :: a2 :: rest3) cmd
      | rest1 => shapeLoop ln rest1 cmd
    else if upperTok kw0 = "DUR".data then
      match rest with
      | arg :: rest2 =>
        match pyFloat? arg with
        | some d => shapeLoop ln rest2 { cmd with move_duration := max 0 (min d MAX_DURATION) }
        | none => .error (.invalidSyntax ln)
      | [] => .ok cmd
    else if upperTok kw0 = "EASE".data then
      match rest with
      | arg :: rest2 =>
        let e := lowerTok arg
        if ALLOWED_EASE_TYPES.contains e then shapeLoop ln rest2 { cmd with ease := e }
        else shapeLoop ln rest2 cmd
      | [] => .ok cmd
    else shapeLoop ln rest cmd

/-- parse_shape_command from dsl_parser.py. -/
def parse_shape_command (tokens : List Str) (ln : Nat) : Except DSLError ShapeCommand :=
  match tokens with
  | [] => .error (.shapeRequiresType ln)
  | t0 :: rest =>
    if ALLOWED_SHAPE_TYPES.contains (upperTok t0) then
      shapeLoop ln rest
        { shape_type := upperTok t0, obj_id := "shape_".data ++ Nat.toDigits 10 ln, x := 50, y := 50 }
    else .error (.unknownShapeType ln (upperTok t0))

/-- Keyword scan of parse_move_command, suffix view as for textLoop. -/
def moveLoop (ln : Nat) : List Str → MoveCommand → Except DSLError MoveCommand
  | [], cmd => .ok cmd
  | kw0 :: rest, cmd =>
    if upperTok kw0 = "TO".data then
      match rest with
      | arg :: rest2 =>
        match coordPair? arg with
        | .error _ => .error (.invalidSyntax ln)
        | .ok (some p) => moveLoop ln rest2 { cmd with to_x := p.1, to_y := p.2 }
        | .ok none => moveLoop ln rest2 cmd
      | [] => .ok cmd
    else if upperTok kw0 = "DUR".data then
      match rest with
      | arg :: rest2 =>
        match pyFloat? arg with
        | some d => moveLoop ln rest2 { cmd with duration := max (1/10) (min d MAX_DURATION) }
        | none => .error (.invalidSyntax ln)
      | [] => .ok cmd
    else if upperTok kw0 = "EASE".data then
      match rest with
      | arg :: rest2 =>
        let e := lowerTok arg
        moveLoop ln rest2 { cmd with ease := if ALLOWED_EASE_TYPES.contains e then e else "linear".data }
      | [] => .ok cmd
    else moveLoop ln rest cmd

/-- parse_move_command from dsl_parser.py. -/
def parse_move_command (tokens : List Str) (ln : Nat) : Except DSLError MoveCommand :=
  if tokens.length < 4 then .error (.moveRequiresArgs ln)
  else
    match tokens with
    | [] => .error (.moveRequiresArgs ln)
    | t0 :: rest =>
      moveLoop ln rest { obj_id := t0, to_x := 0, to_y := 0, duration := 1 }

/-- Parser state threaded through the line loop of parse_dsl: the spec being
built plus the object counter. -/
structure ParseState where
  spec : AnimationSpec := {}
  object_count : Nat := 0
deriving DecidableEq

def initState : ParseState := {}

/-- FPS argument: int(tokens[1]) if present, else the default 24. -/
def fpsArg? (rest : List Str) : Option Int :=
  match rest with
  | v :: _ => pyInt? v
  | [] => some 24

/-- DURATION argument: float(tokens[1]) if present, else the default 3.0. -/
def durationArg? (rest : List Str) : Option Rat :=
  match rest with
  | v :: _ => pyFloat? v
  | [] => some 3

/-- Dispatch of one tokenized line on the uppercased first token. -/
def processTokens (st : ParseState) (ln : Nat) : List Str → Except DSLError ParseState
  | [] => .ok st
  | t0 :: rest =>
      if ALLOWED_COMMANDS.contains (upperTok t0) = false then .error (.unknownCommand ln (upperTok t0))
      else if upperTok t0 = "BACKGROUND".data then
        let color := match rest with | c :: _ => c | [] => "#202020".data
        if validate_color color then .ok { st with spec := { st.spec with background := color } }
        else .error (.invalidColor ln color)
      else if upperTok t0 = "FPS".data then
        match fpsArg? rest with
        | none => .error (.invalidSyntax ln)
        | some fps =>
          if fps < 1 || MAX_FPS < fps then .error (.fpsOutOfRange ln)
          else .ok { st with spec := { st.spec with fps := fps } }
      else if upperTok t0 = "DURATION".data then
        match durationArg? rest with
        | none => .error (.invalidSyntax ln)
        | some d =>
          if d ≤ 0 || MAX_DURATION < d then .error (.durationOutOfRange ln)
          else .ok { st with spec := { st.spec with duration := d } }
      else if upperTok t0 = "TEXT".data then
        if MAX_OBJECTS < st.object_count + 1 then .error (.tooManyObjects ln)
        else
          match parse_text_command rest ln with
          | .error e => .error e
          | .ok c =>
            .ok { spec := { st.spec with objects := st.spec.objects ++ [.text c] },
                  object_count := st.object_count + 1 }
      else if upperTok t0 = "SHAPE".data then
        if MAX_OBJECTS < st.object_count + 1 then .error (.tooManyObjects ln)
        else
          match parse_shape_command rest ln with
          | .error e => .error e
          | .ok c =>
            .ok { spec := { st.spec with objects := st.spec.objects ++ [.shape c] },
                  object_count := st.object_count + 1 }
      else if upperTok t0 = "MOVE".data then
        match parse_move_command rest ln with
        | .error e => .error e
        | .ok m => .ok { st with spec := { st.spec with moves := st.spec.moves ++ [m] } }
      else .ok st

/-- One iteration of the line loop of parse_dsl: strip, skip blanks and
comments, tokenize, dispatch. -/
def processLine (st : ParseState) (ln : Nat) (raw : Str) : Except DSLError ParseState :=
  if (pyStrip raw).isEmpty || (pyStrip raw).head? = some '#' then .ok st
  else processTokens st ln (tokenize_line (pyStrip raw))

/-- The line loop of parse_dsl over 1-based enumerated lines. -/
def processLines : List (Nat × Str) → ParseState → Except DSLError ParseState
  | [], st => .ok st
  | (ln, l) :: rest, st =>
    match processLine st ln l with
    | .error e => .error e
    | .ok st2 => processLines rest st2

/-- The enumerated lines parse_dsl iterates over: strip the whole script,
split on newline, number from 1. -/
def enumLines (script : Str) : List (Nat × Str) :=
  List.enumFrom 1 ((pyStrip script).splitOn '\n')

/-- parse_dsl from dsl_parser.py: run the line loop, then the single final
frame-count check int(fps * duration) > MAX_FRAMES. -/
def parse_dsl (script : Str) : Except DSLError AnimationSpec :=
  match processLines (enumLines script) initState with
  | .error e => .error e
  | .ok st =>
    let total := pyTrunc ((st.spec.fps : Rat) * st.spec.duration)
    if MAX_FRAMES < total then .error (.tooManyFrames total) else .ok st.spec

/-- A motion descriptor as built by _prepare_movements in renderer.py
(the dict fields from, to, start_frame, end_frame, ease). -/
structure MoveDescriptor where
  fromPos : Int × Int
  toPos : Int × Int
  start_frame : Int
  end_frame : Int
  ease : Str
deriving DecidableEq

/-- A Python dict keyed by strings, seen through lookups only. -/
def PyDict (α : Type) : Type := Str → Option α

/-- Dict assignment d[k] = v: replaces any earlier binding of k. -/
def dictSet {α : Type} (d : PyDict α) (k : Str) (v : α) : PyDict α :=
  fun q => if q = k then some v else d q

def emptyDict {α : Type} : PyDict α := fun _ => none

def objId : PyObj → Str
  | .text t => t.obj_id
  | .shape s => s.obj_id

def objXY : PyObj → Int × Int
  | .text t => (t.x, t.y)
  | .shape s => (s.x, s.y)

def objMoveTo : PyObj → Option (Int × Int)
  | .text t => t.move_to
  | .shape s => s.move_to

def objMoveDuration : PyObj → Rat
  | .text t => t.move_duration
  | .shape s => s.move_duration

/-- getattr(obj, 'ease', 'linear'): TextCommand has no ease field. -/
def objEase : PyObj → Str
  | .text _ => "linear".data
  | .shape s => s.ease

/-- First loop of _prepare_movements: record every object's declared
position, later declarations of the same id replacing earlier ones. -/
def object_positions (spec : AnimationSpec) : PyDict (Int × Int) :=
  spec.objects.foldl (fun d o => dictSet d (objId o) (objXY o)) emptyDict

/-- Inline part of _prepare_movements: a descriptor for every object whose
inline MOVE TO clause has a truthy move_to and positive move_duration. -/
def inlineMoves (fps : Int) (objects : List PyObj) : PyDict MoveDescriptor :=
  objects.foldl
    (fun d o =>
      match objMoveTo o with
      | some p =>
        if 0 < objMoveDuration o then
          dictSet d (objId o)
            { fromPos := objXY o, toPos := p, start_frame := 0,
              end_frame := pyTrunc (objMoveDuration o * (fps : Rat)), ease := objEase o }
        else d
      | none => d)
    emptyDict

/-- Second loop of _prepare_movements: each MOVE command whose target id is a
declared object replaces that id's descriptor, reading from from the
declared-position registry (never from an earlier move's endpoint). -/
def applyMoveCommands (positions : PyDict (Int × Int)) (fps : Int)
    (moves : List MoveCommand) (d0 : PyDict MoveDescriptor) : PyDict MoveDescriptor :=
  moves.foldl
    (fun d m =>
      match positions m.obj_id with
      | some p =>
        dictSet d m.obj_id
          { fromPos := p, toPos := (m.to_x, m.to_y), start_frame := 0,
            end_frame := pyTrunc (m.duration * (fps : Rat)), ease := m.ease }
      | none => d)
    d0

/-- The motion-descriptor registry after _prepare_movements. -/
def object_moves (spec : AnimationSpec) : PyDict MoveDescriptor :=
  applyMoveCommands (object_positions spec) spec.fps spec.moves
    (inlineMoves spec.fps spec.objects)

/-- EASE_FUNCTIONS.get(ease, ease_linear) applied to t: ease-in is t²,
ease-out is 1-(1-t)², anything else (including linear) is t. -/
def applyEase (e : Str) (t : Rat) : Rat :=
  if e = "ease-in".data then t * t
  else if e = "ease-out".data then 1 - (1 - t) * (1 - t)
  else t

/-- _get_position from renderer.py: static objects sit at their declared
position; an object with a descriptor interpolates, Python int() truncating
the per-axis value. -/
def getPosition (positions : PyDict (Int × Int)) (moves : PyDict MoveDescriptor)
    (oid : Str) (frame : Int) : Int × Int :=
  match moves oid with
  | none => (positions oid).getD (0, 0)
  | some mv =>
    if frame < mv.start_frame then mv.fromPos
    else if mv.end_frame ≤ frame then mv.toPos
    else
      let progress : Rat :=
        ((frame - mv.start_frame : Int) : Rat) / ((max 1 (mv.end_frame - mv.start_frame) : Int) : Rat)
      let t := applyEase mv.ease progress
      (pyTrunc ((mv.fromPos.1 : Rat) + ((mv.toPos.1 - mv.fromPos.1 : Int) : Rat) * t),
       pyTrunc ((mv.fromPos.2 : Rat) + ((mv.toPos.2 - mv.fromPos.2 : Int) : Rat) * t))

/-- Scale a positive rational up by powers of two until the mantissa reaches
2^52; fuel bounds the loop (4200 covers every finite binary64 magnitude). -/
def b64Up : Nat → Rat → Int → Rat × Int
  | 0, m, s => (m, s)
  | fuel + 1, m, s => if m < 2 ^ 52 then b64Up fuel (m * 2) (s + 1) else (m, s)

/-- Scale down until the mantissa is below 2^53. -/
def b64Down : Nat → Rat → Int → Rat × Int
  | 0, m, s => (m, s)
  | fuel + 1, m, s => if 2 ^ 53 ≤ m then b64Down fuel (m / 2) (s - 1) else (m, s)

/-- Round a nonnegative rational to the nearest IEEE-754 binary64 value
(round to nearest, ties to even), returned as the exact rational that the
double represents.  Used to reproduce CPython's float arithmetic where a
claim can observe its rounding. -/
def roundB64 (q : Rat) : Rat :=
  if q = 0 then 0
  else
    let p1 := b64Up 4200 q 0
    let p2 := b64Down 4200 p1.1 p1.2
    let f : Int := p2.1.floor
    let frac : Rat := p2.1 - (f : Rat)
    let mr : Int :=
      if 1 / 2 < frac then f + 1
      else if frac < 1 / 2 then f
      else if f % 2 = 0 then f else f + 1
    if 0 ≤ p2.2 then (mr : Rat) / 2 ^ p2.2.toNat else (mr : Rat) * 2 ^ (-p2.2).toNat

/-- The binary64 value of the literal 0.299. -/
def lumC1 : Rat := roundB64 (299 / 1000)

/-- The binary64 value of the literal 0.587. -/
def lumC2 : Rat := roundB64 (587 / 1000)

/-- The binary64 value of the literal 0.114. -/
def lumC3 : Rat := roundB64 (114 / 1000)

/-- The luminosity computed by _get_contrasting_color in renderer.py,
with every CPython float operation rounded to binary64:
(0.299*r + 0.587*g + 0.114*b) / 255.0 evaluated left to right. -/
def luminosityB64 (rgb : Int × Int × Int) : Rat :=
  let a := roundB64 (lumC1 * rgb.1)
  let b := roundB64 (lumC2 * rgb.2.1)
  let c := roundB64 (lumC3 * rgb.2.2)
  roundB64 (roundB64 (roundB64 (a + b) + c) / 255)

/-- The spec's luminance formula L = (0.299·r + 0.587·g + 0.114·b)/255
evaluated exactly over the rationals. -/
def luminosityExact (rgb : Int × Int × Int) : Rat :=
  ((299 / 1000 : Rat) * rgb.1 + (587 / 1000 : Rat) * rgb.2.1 + (114 / 1000 : Rat) * rgb.2.2) / 255

/-- _get_contrasting_color from renderer.py: dark semi-transparent ink on a
light background (luminosity above one half), light ink otherwise. -/
def get_contrasting_color (rgb : Int × Int × Int) : Int × Int × Int × Int :=
  if 1 / 2 < luminosityB64 rgb then (50, 50, 50, 200) else (255, 255, 255, 200)

/-- A text bounding box as returned by draw.textbbox. -/
structure BBox where
  x0 : Int
  y0 : Int
  x1 : Int
  y1 : Int
deriving DecidableEq

/-- The environment-provided font metric capability: font size and text to
bounding box.  Rendering is a pure function of the spec and this parameter. -/
def TextMetrics : Type := Int → Str → BBox

/-- One rasterization call issued while compositing a frame. -/
inductive DrawOp where
  | textOp (pos : Int × Int) (content : Str) (size : Int) (color : Int × Int × Int)
  | ellipseOp (x0 y0 x1 y1 : Int) (color : Int × Int × Int)
  | rectOp (x0 y0 x1 y1 : Int) (color : Int × Int × Int)
  | watermarkOp (pos : Int × Int) (fontSize : Int) (color : Int × Int × Int × Int)
deriving DecidableEq

/-- One composited frame: canvas size, background fill, then the ordered
draw calls (paint order; later ops occlude earlier ones). -/
structure Frame where
  width : Int
  height : Int
  bg : Int × Int × Int
  ops : List DrawOp
deriving DecidableEq

/-- AnimationRenderer state after __init__. -/
structure Renderer where
  spec : AnimationSpec
  width : Int
  height : Int
  total_frames : Int
  bg_color : Int × Int × Int
  positions : PyDict (Int × Int)
  moves : PyDict MoveDescriptor

/-- AnimationRenderer.__init__ from renderer.py. -/
def mkRenderer (spec : AnimationSpec) (width height : Int) : Renderer :=
  { spec := spec, width := min width MAX_WIDTH, height := min height MAX_HEIGHT,
    total_frames := pyTrunc ((spec.fps : Rat) * spec.duration),
    bg_color := hex_to_rgb spec.background,
    positions := object_positions spec, moves := object_moves spec }

def watermarkText : Str := "AnveshAI".data

/-- Draw calls of _draw_text / _draw_shape for one object at one frame
(a shape of an unknown kind draws nothing). -/
def drawObjOps (r : Renderer) (frame : Int) : PyObj → List DrawOp
  | .text t =>
    [.textOp (getPosition r.positions r.moves t.obj_id frame) t.text t.size (hex_to_rgb t.color)]
  | .shape s =>
    let p := getPosition r.positions r.moves s.obj_id frame
    if s.shape_type = "CIRCLE".data then
      [.ellipseOp (p.1 - s.radius) (p.2 - s.radius) (p.1 + s.radius) (p.2 + s.radius) (hex_to_rgb s.color)]
    else if s.shape_type = "RECT".data then
      [.rectOp p.1 p.2 (p.1 + s.width) (p.2 + s.height) (hex_to_rgb s.color)]
    else []

/-- The watermark font size from _draw_watermark: max(24, int(height / 12)). -/
def watermarkFontSize (height : Int) : Int := max 24 (pyTrunc ((height : Rat) / 12))

/-- _draw_watermark from renderer.py: bottom-right placement from the font
metrics, ink from the background's luminosity. -/
def watermarkOpOf (metrics : TextMetrics) (r : Renderer) : DrawOp :=
  let fontSize := watermarkFontSize r.height
  let bbox := metrics fontSize watermarkText
  let tw := bbox.x1 - bbox.x0
  let th := bbox.y1 - bbox.y0
  .watermarkOp (r.width - tw - 15, r.height - th - 15) fontSize (get_contrasting_color r.bg_color)

/-- render_frame from renderer.py: background fill, objects in declaration
order, then the unconditional watermark. -/
def renderFrame (metrics : TextMetrics) (r : Renderer) (frame : Int) : Frame :=
  { width := r.width, height := r.height, bg := r.bg_color,
    ops := (r.spec.objects.map (drawObjOps r frame)).flatten ++ [watermarkOpOf metrics r] }

/-- render_all_frames from renderer.py. -/
def renderAllFrames (metrics : TextMetrics) (r : Renderer) : List Frame :=
  (List.range r.total_frames.toNat).map (fun i => renderFrame metrics r (i : Int))

/-- The compile-and-render operation of §6: parse the script, then render
every frame at the requested canvas size. -/
def compileAndRender (metrics : TextMetrics) (script : Str) (width height : Int) :
    Except DSLError (List Frame) :=
  match parse_dsl script with
  | .error e => .error e
  | .ok spec => .ok (renderAllFrames metrics (mkRenderer spec width height))

deriving instance DecidableEq for Except

lemma ratFloor_intCast (n : Int) : Rat.floor ((n : Rat)) = n := by
  simp [Rat.floor]

lemma ratCeil_intCast (n : Int) : Rat.ceil ((n : Rat)) = n := by
  simp [Rat.ceil]

lemma pyTrunc_intCast (n : Int) : pyTrunc ((n : Rat)) = n := by
  unfold pyTrunc
  split
  · exact ratFloor_intCast n
  · exact ratCeil_intCast n

/-- All three easing curves (and the unknown-name fallback) vanish at 0. -/
lemma applyEase_zero (e : Str) : applyEase e 0 = 0 := by
  unfold applyEase
  split
  · ring
  · split
    · ring
    · rfl

/-- C1 (amended): for an object whose motion descriptor has start_frame 0,
the rendered position at any frame 0 ≤ f < end_frame is the Python
int()-truncation (toward zero) of from + (to-from)·ease(f/end_frame) per
axis — truncation, not rounding to nearest — and for any frame
f ≥ end_frame (f ≥ 0) the position is exactly the descriptor's to. -/
theorem C1_position_interpolation (positions : PyDict (Int × Int))
    (moves : PyDict MoveDescriptor) (oid : Str) (mv : MoveDescriptor)
    (hmv : moves oid = some mv) (h0 : mv.start_frame = 0) (f : Int) :
    (0 ≤ f → f < mv.end_frame →
      getPosition positions moves oid f =
        (pyTrunc ((mv.fromPos.1 : Rat) +
            ((mv.toPos.1 - mv.fromPos.1 : Int) : Rat) * applyEase mv.ease ((f : Rat) / (mv.end_frame : Rat))),
         pyTrunc ((mv.fromPos.2 : Rat) +
            ((mv.toPos.2 - mv.fromPos.2 : Int) : Rat) * applyEase mv.ease ((f : Rat) / (mv.end_frame : Rat)))))
    ∧ (0 ≤ f → mv.end_frame ≤ f → getPosition positions moves oid f = mv.toPos) := by
  constructor
  · intro hf0 hfe
    unfold getPosition
    rw [hmv]
    simp only [h0]
    rw [if_neg (by omega), if_neg (by omega)]
    have hmax : max 1 (mv.end_frame - 0) = mv.end_frame := by omega
    rw [hmax]
    norm_num
  · intro hf0 hfe
    unfold getPosition
    rw [hmv]
    simp only [h0]
    rw [if_neg (by omega), if_pos hfe]

def c1ball : ShapeCommand :=
  { shape_type := "CIRCLE".data, obj_id := "ball".data, x := 0, y := 0 }

/-- A spec whose standalone MOVE yields end_frame = int(1 * 2) = 2. -/
def c1spec : AnimationSpec :=
  { fps := 2, duration := 3, objects := [.shape c1ball],
    moves := [{ obj_id := "ball".data, to_x := 3, to_y := 3, duration := 1 }] }

/-- C1 counterexample: the linear move 0 → 3 over 2 frames sits at
0 + 3·(1/2) = 1.5 at frame 1; the renderer truncates to 1 while the claim's
round(·) gives 2. -/
theorem C1_counterexample :
    getPosition (object_positions c1spec) (object_moves c1spec) "ball".data 1 = (1, 1) ∧
    round ((0 : Rat) + ((3 : Rat) - 0) * applyEase "linear".data ((1 : Rat) / 2)) = 2 ∧
    (1 : Int) ≠ 2 := by
  refine ⟨by with_unfolding_all decide, ?_, by decide⟩
  have h : applyEase "linear".data ((1 : Rat) / 2) = 1 / 2 := by
    with_unfolding_all decide
  rw [h]
  norm_num [round_eq]

def c1wMoves : PyDict MoveDescriptor :=
  dictSet emptyDict "o".data
    { fromPos := (0, 0), toPos := (10, 10), start_frame := 0, end_frame := 4,
      ease := "ease-in".data }

/-- Witness for C1_position_interpolation at a concrete descriptor. -/
theorem C1_witness :
    getPosition emptyDict c1wMoves "o".data 3 =
      (pyTrunc ((0 : Rat) + (((10 : Int) - 0 : Int) : Rat) * applyEase "ease-in".data ((3 : Rat) / (4 : Rat))),
       pyTrunc ((0 : Rat) + (((10 : Int) - 0 : Int) : Rat) * applyEase "ease-in".data ((3 : Rat) / (4 : Rat)))) ∧
    getPosition emptyDict c1wMoves "o".data 9 = (10, 10) := by
  have h := C1_position_interpolation emptyDict c1wMoves "o".data
    { fromPos := (0, 0), toPos := (10, 10), start_frame := 0, end_frame := 4, ease := "ease-in".data }
    (by decide) rfl
  exact ⟨by simpa using (h 3).1 (by decide) (by decide), (h 9).2 (by decide) (by decide)⟩

/-- C2 (amended): with start_frame 0 and the nonnegative end_frame the
program produces, the position at f = end_frame is exactly to; the position
at f = 0 is exactly from whenever end_frame > 0; but when end_frame = 0
(e.g. int(0.01 * 24) = 0) the position at f = 0 is to, not from. -/
theorem C2_easing_boundary (positions : PyDict (Int × Int))
    (moves : PyDict MoveDescriptor) (oid : Str) (mv : MoveDescriptor)
    (hmv : moves oid = some mv) (h0 : mv.start_frame = 0) (hend : 0 ≤ mv.end_frame) :
    getPosition positions moves oid mv.end_frame = mv.toPos ∧
    (0 < mv.end_frame → getPosition positions moves oid 0 = mv.fromPos) ∧
    (mv.end_frame = 0 → getPosition positions moves oid 0 = mv.toPos) := by
  refine ⟨?_, ?_, ?_⟩
  · unfold getPosition
    rw [hmv]
    simp only [h0]
    rw [if_neg (by omega), if_pos (le_refl _)]
  · intro hpos
    unfold getPosition
    rw [hmv]
    simp only [h0]
    rw [if_neg (by omega), if_neg (by omega)]
    have hz : ((0 - 0 : Int) : Rat) / ((max 1 (mv.end_frame - 0) : Int) : Rat) = 0 := by
      norm_num
    rw [hz, applyEase_zero]
    simp [pyTrunc_intCast]
  · intro hzero
    unfold getPosition
    rw [hmv]
    simp only [h0]
    rw [if_neg (by omega), if_pos (by omega)]

def c2script : Str := ("FPS 24\nSHAPE CIRCLE ID b AT 0,0 MOVE TO 5,5 DUR 0.01").data

/-- C2 counterexample: parsing this script gives object b an inline
descriptor with from = (0,0), to = (5,5) and end_frame = int(0.01·24) = 0;
at frame 0 the rendered position is to = (5,5), not from = (0,0). -/
theorem C2_counterexample :
    ((parse_dsl c2script).toOption.bind (fun spec => object_moves spec "b".data)) =
      some { fromPos := (0, 0), toPos := (5, 5), start_frame := 0, end_frame := 0,
             ease := "linear".data } ∧
    ((parse_dsl c2script).toOption.map (fun spec =>
        getPosition (object_positions spec) (object_moves spec) "b".data 0)) = some (5, 5) ∧
    ((5, 5) : Int × Int) ≠ (0, 0) := by
  refine ⟨?_, ?_, by decide⟩ <;> with_unfolding_all decide

/-- Witness for C2_easing_boundary at a concrete descriptor. -/
theorem C2_witness :
    getPosition emptyDict c1wMoves "o".data 4 = (10, 10) ∧
    getPosition emptyDict c1wMoves "o".data 0 = (0, 0) := by
  have h := C2_easing_boundary emptyDict c1wMoves "o".data
    { fromPos := (0, 0), toPos := (10, 10), start_frame := 0, end_frame := 4, ease := "ease-in".data }
    (by decide) rfl (by decide)
  exact ⟨h.1, h.2.1 (by decide)⟩

lemma dictSet_same {α : Type} (d : PyDict α) (k : Str) (v : α) : dictSet d k v k = some v := by
  simp [dictSet]

lemma dictSet_other {α : Type} (d : PyDict α) (k q : Str) (v : α) (h : q ≠ k) :
    dictSet d k v q = d q := by
  simp [dictSet, h]

/-- Lookup after the MOVE-command loop: the last applicable MOVE command for
an id wins, and its from is read from the declared-position registry; with no
applicable command the incoming dict is untouched at that id. -/
lemma applyMoveCommands_lookup (positions : PyDict (Int × Int)) (fps : Int)
    (oid : Str) (p : Int × Int) (hpos : positions oid = some p) :
    ∀ (ms : List MoveCommand) (d0 : PyDict MoveDescriptor),
      applyMoveCommands positions fps ms d0 oid =
        match (ms.filter (fun m => m.obj_id == oid)).getLast? with
        | none => d0 oid
        | some m =>
          some { fromPos := p, toPos := (m.to_x, m.to_y), start_frame := 0,
                 end_frame := pyTrunc (m.duration * (fps : Rat)), ease := m.ease } := by
  intro ms
  induction ms with
  | nil => intro d0; rfl
  | cons m rest ih =>
    intro d0
    by_cases hm : m.obj_id = oid
    · have hstep : applyMoveCommands positions fps (m :: rest) d0 =
          applyMoveCommands positions fps rest
            (dictSet d0 m.obj_id
              { fromPos := p, toPos := (m.to_x, m.to_y), start_frame := 0,
                end_frame := pyTrunc (m.duration * (fps : Rat)), ease := m.ease }) := by
        unfold applyMoveCommands
        rw [List.foldl_cons]
        rw [hm, hpos]
      rw [hstep, ih]
      have hfilter : (m :: rest).filter (fun x => x.obj_id == oid) =
          m :: rest.filter (fun x => x.obj_id == oid) := by
        simp [List.filter_cons, hm]
      rw [hfilter]
      cases hfr : rest.filter (fun x => x.obj_id == oid) with
      | nil =>
        have h1 : (List.getLast? (α := MoveCommand) []) = none := rfl
        have h2 : List.getLast? [m] = some m := rfl
        rw [h1, h2, hm]
        exact (dictSet_same d0 oid _).symm ▸ rfl
      | cons b l =>
        rw [List.getLast?_cons_cons,
          List.getLast?_eq_getLast_of_ne_nil (l := b :: l) (by simp)]
    · have hstep : applyMoveCommands positions fps (m :: rest) d0 =
          applyMoveCommands positions fps rest
            (match positions m.obj_id with
             | some q =>
               dictSet d0 m.obj_id
                 { fromPos := q, toPos := (m.to_x, m.to_y), start_frame := 0,
                   end_frame := pyTrunc (m.duration * (fps : Rat)), ease := m.ease }
             | none => d0) := by
        unfold applyMoveCommands
        rw [List.foldl_cons]
      have hfilter : (m :: rest).filter (fun x => x.obj_id == oid) =
          rest.filter (fun x => x.obj_id == oid) := by
        simp [List.filter_cons, hm]
      rw [hstep, ih, hfilter]
      have hd0 : (match positions m.obj_id with
          | some q =>
            dictSet d0 m.obj_id
              { fromPos := q, toPos := (m.to_x, m.to_y), start_frame := 0,
                end_frame := pyTrunc (m.duration * (fps : Rat)), ease := m.ease }
          | none => d0) oid = d0 oid := by
        cases positions m.obj_id with
        | none => rfl
        | some q => exact dictSet_other _ _ _ _ (fun h => hm h.symm)
      rw [hd0]

/-- C3: for a declared object id (declared position p), the final
motion-descriptor registry holds at most one descriptor for the id, and it
is determined by the last applicable declaration: if any standalone MOVE
command targets the id, the last such command wins entirely and its from is
the declared position p (never an earlier move's endpoint); otherwise the
registry holds whatever the inline MOVE TO pass produced for the id. -/
theorem C3_last_declaration_wins (spec : AnimationSpec) (oid : Str) (p : Int × Int)
    (hpos : object_positions spec oid = some p) :
    object_moves spec oid =
      match (spec.moves.filter (fun m => m.obj_id == oid)).getLast? with
      | none => inlineMoves spec.fps spec.objects oid
      | some m =>
        some { fromPos := p, toPos := (m.to_x, m.to_y), start_frame := 0,
               end_frame := pyTrunc (m.duration * (spec.fps : Rat)), ease := m.ease } := by
  unfold object_moves
  exact applyMoveCommands_lookup (object_positions spec) spec.fps oid p hpos spec.moves
    (inlineMoves spec.fps spec.objects)

/-- A spec with an inline move and two standalone moves on the same id. -/
def c3spec : AnimationSpec :=
  { fps := 24, duration := 3,
    objects := [.shape { shape_type := "CIRCLE".data, obj_id := "o".data, x := 10, y := 20,
                         move_to := some (100, 100), move_duration := 1 }],
    moves := [{ obj_id := "o".data, to_x := 50, to_y := 50, duration := 1 },
              { obj_id := "o".data, to_x := 70, to_y := 80, duration := 2 }] }

/-- Witness for C3: the second standalone MOVE replaces both the inline
descriptor and the first MOVE, and restarts from the declared position
(10,20), not from (50,50) or (100,100). -/
theorem C3_witness :
    object_moves c3spec "o".data =
      some { fromPos := (10, 20), toPos := (70, 80), start_frame := 0, end_frame := 48,
             ease := "linear".data } := by
  have h := C3_last_declaration_wins c3spec "o".data (10, 20) (by with_unfolding_all decide)
  rw [h]
  with_unfolding_all decide

/-- In quote mode with no closing quote ahead, the rest of the line joins the
current token and is flushed at end of line without any error. -/
lemma tokenizeGo_quoted (b : Str) (hq : '\"' ∉ b) :
    ∀ cur acc, tokenizeGo b true cur acc =
      if cur ++ b = [] then acc else acc ++ [cur ++ b] := by
  induction b with
  | nil =>
    intro cur acc
    cases cur <;> simp [tokenizeGo]
  | cons c rest ih =>
    intro cur acc
    have hc : ¬ (c = '\"') := fun h => hq (h ▸ List.mem_cons_self c rest)
    have hrest : '\"' ∉ rest := fun h => hq (List.mem_cons_of_mem c h)
    have hstep : tokenizeGo (c :: rest) true cur acc = tokenizeGo rest true (cur ++ [c]) acc := by
      rw [tokenizeGo]
      simp [hc]
    rw [hstep, ih hrest (cur ++ [c]) acc]
    simp

/-- Outside quote mode, quote-free space-free characters accumulate into the
current token until the opening quote flips the mode. -/
lemma tokenizeGo_preQuote (a : Str) (haq : '\"' ∉ a) (has : ' ' ∉ a) :
    ∀ b cur acc, tokenizeGo (a ++ '\"' :: b) false cur acc = tokenizeGo b true (cur ++ a) acc := by
  induction a with
  | nil =>
    intro b cur acc
    show tokenizeGo ('\"' :: b) false cur acc = _
    rw [tokenizeGo]
    simp
  | cons c a2 ih =>
    intro b cur acc
    have hc : ¬ (c = '\"') := fun h => haq (h ▸ List.mem_cons_self c a2)
    have hs : ¬ (c = ' ') := fun h => has (h ▸ List.mem_cons_self c a2)
    have ha2q : '\"' ∉ a2 := fun h => haq (List.mem_cons_of_mem c h)
    have ha2s : ' ' ∉ a2 := fun h => has (List.mem_cons_of_mem c h)
    have hstep : tokenizeGo (c :: (a2 ++ '\"' :: b)) false cur acc =
        tokenizeGo (a2 ++ '\"' :: b) false (cur ++ [c]) acc := by
      rw [tokenizeGo]
      simp [hc, hs]
    rw [List.cons_append, hstep, ih ha2q ha2s b (cur ++ [c]) acc]
    simp

/-- C7: the tokenizer keeps a double-quoted span as one token without the
quotes (the concrete example produces exactly its four tokens), and an
unterminated opening quote consumes the rest of the line into the current
token without producing any failure. -/
theorem C7_tokenizer_quotes :
    tokenize_line ("TEXT \"Hello World\" AT 10,10".data) =
      ["TEXT".data, "Hello World".data, "AT".data, "10,10".data] ∧
    (∀ a b : Str, '\"' ∉ a → ' ' ∉ a → '\"' ∉ b →
      tokenize_line (a ++ '\"' :: b) = if a ++ b = [] then [] else [a ++ b]) := by
  constructor
  · decide
  · intro a b haq has hbq
    unfold tokenize_line
    rw [tokenizeGo_preQuote a haq has b [] []]
    rw [tokenizeGo_quoted b hbq ([] ++ a) []]
    simp

/-- Witness for C7 at a concrete unterminated-quote line. -/
theorem C7_witness : tokenize_line ("ab\"cd ef".data) = ["abcd ef".data] := by
  have h := C7_tokenizer_quotes.2 "ab".data "cd ef".data (by decide) (by decide) (by decide)
  simpa using h

lemma eatHex_append (h rest : Str) (hhex : h.all isHexChar = true) :
    eatHex h.length (h ++ rest) = some rest := by
  induction h with
  | nil => rfl
  | cons c h2 ih =>
    simp only [List.all_cons, Bool.and_eq_true] at hhex
    show eatHex (h2.length + 1) (c :: (h2 ++ rest)) = some rest
    rw [eatHex]
    simp [hhex.1, ih hhex.2]

lemma eatHex_inv (n : Nat) : ∀ (r rest : Str), eatHex n r = some rest →
    ∃ h, r = h ++ rest ∧ h.length = n ∧ h.all isHexChar = true := by
  induction n with
  | zero =>
    intro r rest he
    rw [eatHex] at he
    exact ⟨[], by simpa using (Option.some.injEq _ _ ▸ he :)⟩
  | succ n ih =>
    intro r rest he
    cases r with
    | nil => exact absurd he (by rw [eatHex]; exact fun h => Option.noConfusion h)
    | cons c r2 =>
      rw [eatHex] at he
      by_cases hc : isHexChar c = true
      · rw [if_pos hc] at he
        obtain ⟨h, hr, hl, hh⟩ := ih r2 rest he
        exact ⟨c :: h, by simp [hr], by simp [hl], by simp [hc, hh]⟩
      · rw [if_neg hc] at he
        exact Option.noConfusion he

lemma colorSpecFullMatch_hash (r : Str) :
    colorSpecFullMatch ('#' :: r) = true ↔ (r.length = 6 ∧ r.all isHexChar = true) := by
  simp [colorSpecFullMatch]

/-- C5 (amended): validate_color accepts exactly the full matches of the
pattern and full matches followed by one trailing newline (CPython's dollar
anchor); and inside parsing, any failing color token after BACKGROUND, after
TEXT ... COLOR, or after SHAPE ... COLOR raises the invalid-color error
naming the offending value and line. -/
lemma validate_color_hash (r : Str) :
    validate_color ('#' :: r) =
      (match eatHex 6 r with
       | some rest => if rest = [] then true else if rest = ['\n'] then true else false
       | none => false) := by
  simp [validate_color]

lemma textLoop_cons (ln : Nat) (kw0 : Str) (rest : List Str) (cmd : TextCommand) :
    textLoop ln (kw0 :: rest) cmd =
      (if upperTok kw0 = "AT".data then
        match rest with
        | arg :: rest2 =>
          match coordPair? arg with
          | .error _ => .error (.invalidSyntax ln)
          | .ok (some p) => textLoop ln rest2 { cmd with x := p.1, y := p.2 }
          | .ok none => textLoop ln rest2 cmd
        | [] => .ok cmd
      else if upperTok kw0 = "SIZE".data then
        match rest with
        | arg :: rest2 =>
          match pyInt? arg with
          | some n => textLoop ln rest2 { cmd with size := min (max n 8) 200 }
          | none => .error (.invalidSyntax ln)
        | [] => .ok cmd
      else if upperTok kw0 = "COLOR".data then
        match rest with
        | arg :: rest2 =>
          if validate_color arg then textLoop ln rest2 { cmd with color := arg }
          else .error (.invalidColor ln arg)
        | [] => .ok cmd
      else if upperTok kw0 = "ID".data then
        match rest with
        | arg :: rest2 => textLoop ln rest2 { cmd with obj_id := arg }
        | [] => .ok cmd
      else if upperTok kw0 = "MOVE".data then
        match rest with
        | a1 :: a2 :: rest3 =>
          if upperTok a1 = "TO".data then
            match coordPair? a2 with
            | .error _ => .error (.invalidSyntax ln)
            | .ok (some p) => textLoop ln rest3 { cmd with move_to := some p }
            | .ok none => textLoop ln rest3 cmd
          else textLoop ln (a1 :: a2 :: rest3) cmd
        | rest1 => textLoop ln rest1 cmd
      else if upperTok kw0 = "DUR".data then
        match rest with
        | arg :: rest2 =>
          match pyFloat? arg with
          | some d => textLoop ln rest2 { cmd with move_duration := max 0 (min d MAX_DURATION) }
          | none => .error (.invalidSyntax ln)
        | [] => .ok cmd
      else textLoop ln rest cmd) := by
  cases rest with
  | nil => rfl
  | cons a1 r1 =>
    cases r1 with
    | nil => rfl
    | cons a2 r2 => rfl

lemma shapeLoop_cons (ln : Nat) (kw0 : Str) (rest : List Str) (cmd : ShapeCommand) :
    shapeLoop ln (kw0 :: rest) cmd =
      (if upperTok kw0 = "ID".data then
        match rest with
        | arg :: rest2 => shapeLoop ln rest2 { cmd with obj_id := arg }
        | [] => .ok cmd
      else if upperTok kw0 = "AT".data then
        match rest with
        | arg :: rest2 =>
          match coordPair? arg with
          | .error _ => .error (.invalidSyntax ln)
          | .ok (some p) => shapeLoop ln rest2 { cmd with x := p.1, y := p.2 }
          | .ok none => shapeLoop ln rest2 cmd
        | [] => .ok cmd
      else if upperTok kw0 = "RADIUS".data then
        match rest with
        | arg :: rest2 =>
          match pyInt? arg with
          | some n => shapeLoop ln rest2 { cmd with radius := min (max n 1) 500 }
          | none => .error (.invalidSyntax ln)
        | [] => .ok cmd
      else if upperTok kw0 = "WIDTH".data then
        match rest with
        | arg :: rest2 =>
          match pyInt? arg with
          | some n => shapeLoop ln rest2 { cmd with width := min (max n 1) MAX_WIDTH }
          | none => .error (.invalidSyntax ln)
        | [] => .ok cmd
      else if upperTok kw0 = "HEIGHT".data then
        match rest with
        | arg :: rest2 =>
          match pyInt? arg with
          | some n => shapeLoop ln rest2 { cmd with height := min (max n 1) MAX_HEIGHT }
          | none => .error (.invalidSyntax ln)
        | [] => .ok cmd
      else if upperTok kw0 = "COLOR".data then
        match rest with
        | arg :: rest2 =>
          if validate_color arg then shapeLoop ln rest2 { cmd with color := arg }
          else .error (.invalidColor ln arg)
        | [] => .ok cmd
      else if upperTok kw0 = "MOVE".data then
        match rest with
        | a1 :: a2 :: rest3 =>
          if upperTok a1 = "TO".data then
            match coordPair? a2 with
            | .error _ => .error (.invalidSyntax ln)
            | .ok (some p) => shapeLoop ln rest3 { cmd with move_to := some p }
            | .ok none => shapeLoop ln rest3 cmd
          else shapeLoop ln (a1 :: a2 :: rest3) cmd
        | rest1 => shapeLoop ln rest1 cmd
      else if upperTok kw0 = "DUR".data then
        match rest with
        | arg :: rest2 =>
          match pyFloat? arg with
          | some d => shapeLoop ln rest2 { cmd with move_duration := max 0 (min d MAX_DURATION) }
          | none => .error (.invalidSyntax ln)
        | [] => .ok cmd
      else if upperTok kw0 = "EASE".data then
        match rest with
        | arg :: rest2 =>
          let e := lowerTok arg
          if ALLOWED_EASE_TYPES.contains e then shapeLoop ln rest2 { cmd with ease := e }
          else shapeLoop ln rest2 cmd
        | [] => .ok cmd
      else shapeLoop ln rest cmd) := by
  cases rest with
  | nil => rfl
  | cons a1 r1 =>
    cases r1 with
    | nil => rfl
    | cons a2 r2 => rfl

theorem C5_color_validation :
    (∀ s : Str, validate_color s = true ↔
        (colorSpecFullMatch s = true ∨ ∃ t, colorSpecFullMatch t = true ∧ s = t ++ ['\n'])) ∧
    (∀ (st : ParseState) (ln : Nat) (raw : Str) (t0 c : Str) (rest : List Str),
        pyStrip raw ≠ [] → (pyStrip raw).head? ≠ some '#' →
        tokenize_line (pyStrip raw) = t0 :: c :: rest →
        upperTok t0 = "BACKGROUND".data → validate_color c = false →
        processLine st ln raw = .error (.invalidColor ln c)) ∧
    (∀ (ln : Nat) (kw0 c : Str) (rest : List Str) (cmd : TextCommand),
        upperTok kw0 = "COLOR".data → validate_color c = false →
        textLoop ln (kw0 :: c :: rest) cmd = .error (.invalidColor ln c)) ∧
    (∀ (ln : Nat) (kw0 c : Str) (rest : List Str) (cmd : ShapeCommand),
        upperTok kw0 = "COLOR".data → validate_color c = false →
        shapeLoop ln (kw0 :: c :: rest) cmd = .error (.invalidColor ln c)) := by
  refine ⟨?_, ?_, ?_, ?_⟩
  · intro s
    cases s with
    | nil =>
      constructor
      · intro h
        exact absurd h (by decide)
      · rintro (h | ⟨t, ht, hs⟩)
        · exact absurd h (by decide)
        · exact absurd hs.symm (by simp)
    | cons c r =>
      by_cases hc : c = '#'
      · subst hc
        rw [validate_color_hash]
        constructor
        · intro hv
          cases he : eatHex 6 r with
          | none => rw [he] at hv; exact absurd hv (by decide)
          | some rest =>
            rw [he] at hv
            have hv2 : (if rest = [] then true
                else if rest = ['\n'] then true else false) = true := hv
            obtain ⟨h, hr, hl, hh⟩ := eatHex_inv 6 r rest he
            by_cases h0 : rest = []
            · subst h0
              left
              rw [colorSpecFullMatch_hash]
              simp only [List.append_nil] at hr
              subst hr
              exact ⟨hl, hh⟩
            · rw [if_neg h0] at hv2
              by_cases h1 : rest = ['\n']
              · subst h1
                right
                refine ⟨'#' :: h, ?_, by simp [hr]⟩
                rw [colorSpecFullMatch_hash]
                exact ⟨hl, hh⟩
              · rw [if_neg h1] at hv2
                exact absurd hv2 (by decide)
        · rintro (h | ⟨t, ht, hs⟩)
          · rw [colorSpecFullMatch_hash] at h
            have he := eatHex_append r [] h.2
            rw [List.append_nil, h.1] at he
            rw [he]
            rfl
          · cases t with
            | nil => exact absurd ht (by decide)
            | cons tc tr =>
              simp only [colorSpecFullMatch, Bool.and_eq_true, decide_eq_true_eq] at ht
              obtain ⟨⟨hlen, hhd⟩, hall⟩ := ht
              have htc : tc = '#' := by simpa using hhd
              subst htc
              have hs2 : r = tr ++ ['\n'] := by simpa using congrArg List.tail hs
              have hlen2 : tr.length = 6 := by simpa using hlen
              have hall2 : tr.all isHexChar = true := by simpa using hall
              have he := eatHex_append tr ['\n'] hall2
              rw [hlen2] at he
              rw [hs2, he]
              simp
      · constructor
        · intro hv
          simp [validate_color, hc] at hv
        · rintro (h | ⟨t, ht, hs⟩)
          · simp only [colorSpecFullMatch, Bool.and_eq_true, decide_eq_true_eq] at h
            exact absurd (by simpa using h.1.2) hc
          · cases t with
            | nil => exact absurd ht (by decide)
            | cons tc tr =>
              simp only [colorSpecFullMatch, Bool.and_eq_true, decide_eq_true_eq] at ht
              have htc : tc = '#' := by simpa using ht.1.2
              subst htc
              have : c = '#' := by simpa using congrArg List.head? hs
              exact absurd this hc
  · intro st ln raw t0 c rest hne hhd htok hcmd hval
    unfold processLine
    rw [if_neg (by simp [List.isEmpty_iff, hne, hhd]), htok]
    simp only [processTokens]
    rw [hcmd]
    rw [if_neg (by decide), if_pos rfl]
    rw [if_neg (by simp [hval])]
  · intro ln kw0 c rest cmd hkw hval
    rw [textLoop_cons, hkw]
    rw [if_neg (by decide), if_neg (by decide), if_pos rfl]
    simp [hval]
  · intro ln kw0 c rest cmd hkw hval
    rw [shapeLoop_cons, hkw]
    rw [if_neg (by decide), if_neg (by decide), if_neg (by decide), if_neg (by decide),
      if_neg (by decide), if_pos rfl]
    simp [hval]

/-- C5 counterexample: a valid color followed by one newline is accepted by
validate_color although it does not fully match the pattern (nothing may
follow the six digits). -/
theorem C5_counterexample :
    validate_color ("#00FF00".data ++ ['\n']) = true ∧
    colorSpecFullMatch ("#00FF00".data ++ ['\n']) = false := by
  constructor <;> decide

/-- Witness for C5 at concrete inputs. -/
theorem C5_witness :
    validate_color "#00FF00".data = true ∧
    processLine initState 1 ("BACKGROUND red".data) = .error (.invalidColor 1 "red".data) ∧
    textLoop 2 ["COLOR".data, "zz".data] { text := "t".data, x := 100, y := 100 } =
      .error (.invalidColor 2 "zz".data) := by
  refine ⟨(C5_color_validation.1 _).mpr (.inl (by decide)), ?_, ?_⟩
  · exact C5_color_validation.2.1 initState 1 ("BACKGROUND red".data) "BACKGROUND".data
      "red".data [] (by decide) (by decide) (by decide) (by decide) (by decide)
  · exact C5_color_validation.2.2.1 2 "COLOR".data "zz".data [] _ (by decide) (by decide)

/-- C8 (amended): every composited frame ends with the watermark draw call
(unconditional, bottom-right from the font metrics) at font size
max(24, int(height/12)), and its ink is the dark semi-transparent one exactly
when the background luminosity computed in binary64 floating point exceeds
one half, the light one otherwise. -/
theorem C8_watermark_luminance (metrics : TextMetrics) (r : Renderer) (frame : Int) :
    (renderFrame metrics r frame).ops.getLast? =
      some (.watermarkOp
        (r.width - ((metrics (watermarkFontSize r.height) watermarkText).x1 -
                    (metrics (watermarkFontSize r.height) watermarkText).x0) - 15,
         r.height - ((metrics (watermarkFontSize r.height) watermarkText).y1 -
                     (metrics (watermarkFontSize r.height) watermarkText).y0) - 15)
        (max 24 (pyTrunc ((r.height : Rat) / 12)))
        (if 1 / 2 < luminosityB64 r.bg_color then (50, 50, 50, 200)
         else (255, 255, 255, 200))) := by
  unfold renderFrame
  rw [List.getLast?_concat]
  unfold watermarkOpOf get_contrasting_color watermarkFontSize
  rfl

set_option maxRecDepth 100000 in
/-- C8 counterexample: at background #DA3AF8 the exact luminance is exactly
one half, so the claim's rule (dark only when L > 0.5) picks the light ink;
CPython's binary64 evaluation lands one ulp above one half and the code picks
the dark ink. -/
theorem C8_counterexample :
    get_contrasting_color (hex_to_rgb "#DA3AF8".data) = (50, 50, 50, 200) ∧
    luminosityExact (hex_to_rgb "#DA3AF8".data) = 1 / 2 ∧
    ¬ ((1 : Rat) / 2 > 1 / 2) := by
  refine ⟨?_, ?_, by norm_num⟩
  · with_unfolding_all decide
  · with_unfolding_all decide

/-- A fixed font-metric environment for concrete rendering examples. -/
def zeroMetrics : TextMetrics := fun _ _ => ⟨0, 0, 0, 0⟩

/-- C9: compile-and-render is deterministic — with the font-metric resource
fixed, parsing is a pure function of the script, the whole pipeline is a pure
function of script and canvas size, and any two parses of the same script
yield the same spec and pixel-identical frame content at every index. -/
theorem C9_determinism (metrics : TextMetrics) (script : Str) (w h : Int) :
    parse_dsl script = parse_dsl script ∧
    compileAndRender metrics script w h = compileAndRender metrics script w h ∧
    (∀ spec1 spec2, parse_dsl script = .ok spec1 → parse_dsl script = .ok spec2 →
      spec1 = spec2 ∧
      ∀ f : Int,
        renderFrame metrics (mkRenderer spec1 w h) f =
          renderFrame metrics (mkRenderer spec2 w h) f) := by
  refine ⟨rfl, rfl, ?_⟩
  intro spec1 spec2 h1 h2
  have hs : spec1 = spec2 := Except.ok.inj (h1.symm.trans h2)
  subst hs
  exact ⟨rfl, fun _ => rfl⟩

/-- Witness for C9 at a concrete script. -/
theorem C9_witness :
    renderFrame zeroMetrics (mkRenderer { fps := 2 } 640 360) 0 =
      renderFrame zeroMetrics (mkRenderer { fps := 2 } 640 360) 0 := by
  have h := (C9_determinism zeroMetrics ("FPS 2".data) 640 360).2.2
    { fps := 2 } { fps := 2 } (by with_unfolding_all decide) (by with_unfolding_all decide)
  exact h.2 0

lemma applyMoveCommands_skip (positions : PyDict (Int × Int)) (fps : Int)
    (m : MoveCommand) (hp : positions m.obj_id = none) (l1 l2 : List MoveCommand)
    (d0 : PyDict MoveDescriptor) :
    applyMoveCommands positions fps (l1 ++ m :: l2) d0 =
      applyMoveCommands positions fps (l1 ++ l2) d0 := by
  unfold applyMoveCommands
  rw [List.foldl_append, List.foldl_cons, List.foldl_append]
  congr 1
  simp only [hp]

lemma drawObjOps_congr (r1 r2 : Renderer) (f : Int)
    (hp : r1.positions = r2.positions) (hm : r1.moves = r2.moves) :
    drawObjOps r1 f = drawObjOps r2 f := by
  funext o
  cases o with
  | text t => simp [drawObjOps, hp, hm]
  | shape s => simp [drawObjOps, hp, hm]

/-- C10: a standalone MOVE whose target id matches no declared object is
accepted by the parser (its command is appended to the move list, nothing
else changes), and the renderer ignores it entirely: the descriptor registry
and every composited frame are the same as for the document without it. -/
theorem C10_unknown_move_target :
    (∀ (st : ParseState) (ln : Nat) (raw : Str) (t0 : Str) (rest : List Str) (m : MoveCommand),
        pyStrip raw ≠ [] → (pyStrip raw).head? ≠ some '#' →
        tokenize_line (pyStrip raw) = t0 :: rest →
        upperTok t0 = "MOVE".data →
        parse_move_command rest ln = .ok m →
        processLine st ln raw =
          .ok { st with spec := { st.spec with moves := st.spec.moves ++ [m] } }) ∧
    (∀ (spec : AnimationSpec) (m : MoveCommand) (l1 l2 : List MoveCommand),
        spec.moves = l1 ++ m :: l2 →
        object_positions spec m.obj_id = none →
        object_moves spec = object_moves { spec with moves := l1 ++ l2 } ∧
        ∀ (metrics : TextMetrics) (w h f : Int),
          renderFrame metrics (mkRenderer spec w h) f =
            renderFrame metrics (mkRenderer { spec with moves := l1 ++ l2 } w h) f) := by
  constructor
  · intro st ln raw t0 rest m hne hhd htok hcmd hm
    unfold processLine
    rw [if_neg (by simp [List.isEmpty_iff, hne, hhd]), htok]
    simp only [processTokens]
    rw [hcmd]
    rw [if_neg (by decide), if_neg (by decide), if_neg (by decide), if_neg (by decide),
      if_neg (by decide), if_neg (by decide), if_pos rfl, hm]
  · intro spec m l1 l2 hsplit hp
    have hmv : object_moves spec = object_moves { spec with moves := l1 ++ l2 } := by
      unfold object_moves
      rw [hsplit]
      exact applyMoveCommands_skip (object_positions spec) spec.fps m hp l1 l2 _
    refine ⟨hmv, ?_⟩
    intro metrics w h f
    have hdraw : drawObjOps (mkRenderer spec w h) f =
        drawObjOps (mkRenderer { spec with moves := l1 ++ l2 } w h) f :=
      drawObjOps_congr _ _ f rfl hmv
    unfold renderFrame
    rw [hdraw]
    rfl

def c10shape : ShapeCommand := { shape_type := "CIRCLE".data, obj_id := "a".data, x := 1, y := 1 }

def c10move : MoveCommand := { obj_id := "ghost".data, to_x := 9, to_y := 9, duration := 1 }

def c10specWith : AnimationSpec := { objects := [.shape c10shape], moves := [c10move] }

def c10specWithout : AnimationSpec := { objects := [.shape c10shape], moves := [] }

/-- Witness for C10 at a concrete spec and MOVE line. -/
theorem C10_witness :
    processLine initState 1 ("MOVE ghost TO 9,9 DUR 1".data) =
      .ok { initState with spec := { initState.spec with moves := [c10move] } } ∧
    renderFrame zeroMetrics (mkRenderer c10specWith 640 360) 0 =
      renderFrame zeroMetrics (mkRenderer c10specWithout 640 360) 0 := by
  constructor
  · have h := C10_unknown_move_target.1 initState 1 ("MOVE ghost TO 9,9 DUR 1".data)
      "MOVE".data ["ghost".data, "TO".data, "9,9".data, "DUR".data, "1".data] c10move
      (by decide) (by decide) (by decide) (by decide) (by with_unfolding_all decide)
    simpa using h
  · have h := (C10_unknown_move_target.2 c10specWith c10move [] [] rfl (by decide)).2
      zeroMetrics 640 360 0
    simpa using h

/-- The fps value a line sets, read off the raw line the way the parser does:
none when the line is skipped, not an FPS command, or its argument fails
int() conversion (in which case the parser errors rather than proceeding). -/
def lineFps? (raw : Str) : Option Int :=
  if (pyStrip raw).isEmpty || (pyStrip raw).head? = some '#' then none
  else
    match tokenize_line (pyStrip raw) with
    | [] => none
    | t0 :: rest =>
      if upperTok t0 = "FPS".data then fpsArg? rest
      else none

/-- The duration a line sets, as lineFps? but for DURATION. -/
def lineDuration? (raw : Str) : Option Rat :=
  if (pyStrip raw).isEmpty || (pyStrip raw).head? = some '#' then none
  else
    match tokenize_line (pyStrip raw) with
    | [] => none
    | t0 :: rest =>
      if upperTok t0 = "DURATION".data then durationArg? rest
      else none

/-- The final fps after the whole document: the value of the last FPS line,
default 24. -/
def finalFps (lines : List Str) : Int :=
  lines.foldl (fun a l => (lineFps? l).getD a) 24

/-- The final duration after the whole document: the value of the last
DURATION line, default 3. -/
def finalDuration (lines : List Str) : Rat :=
  lines.foldl (fun a l => (lineDuration? l).getD a) 3

/-- Whether a raw line is a TEXT or SHAPE command line (the lines that
increment the object counter). -/
def isObjLine (raw : Str) : Bool :=
  if (pyStrip raw).isEmpty || (pyStrip raw).head? = some '#' then false
  else
    match tokenize_line (pyStrip raw) with
    | [] => false
    | t0 :: _ => upperTok t0 = "TEXT".data || upperTok t0 = "SHAPE".data

lemma lineClasses (raw : Str) (t0 : Str) (rest : List Str)
    (hskip : ¬ ((pyStrip raw).isEmpty || (pyStrip raw).head? = some '#'))
    (heq : tokenize_line (pyStrip raw) = t0 :: rest) :
    lineFps? raw = (if upperTok t0 = "FPS".data then fpsArg? rest else none) ∧
    lineDuration? raw = (if upperTok t0 = "DURATION".data then durationArg? rest else none) ∧
    isObjLine raw = (upperTok t0 = "TEXT".data || upperTok t0 = "SHAPE".data) := by
  unfold lineFps? lineDuration? isObjLine
  rw [if_neg hskip, if_neg hskip, if_neg hskip, heq]
  exact ⟨rfl, rfl, rfl⟩

lemma lineClasses_skip (raw : Str)
    (hskip : ((pyStrip raw).isEmpty || (pyStrip raw).head? = some '#')) :
    lineFps? raw = none ∧ lineDuration? raw = none ∧ isObjLine raw = false := by
  unfold lineFps? lineDuration? isObjLine
  rw [if_pos hskip, if_pos hskip, if_pos hskip]
  exact ⟨rfl, rfl, rfl⟩

lemma lineClasses_blank (raw : Str)
    (hskip : ¬ ((pyStrip raw).isEmpty || (pyStrip raw).head? = some '#'))
    (heq : tokenize_line (pyStrip raw) = []) :
    lineFps? raw = none ∧ lineDuration? raw = none ∧ isObjLine raw = false := by
  unfold lineFps? lineDuration? isObjLine
  rw [if_neg hskip, if_neg hskip, if_neg hskip, heq]
  exact ⟨rfl, rfl, rfl⟩

/-- What one successfully processed line does to the parser state: FPS and
DURATION lines set fps/duration to their argument, every other line leaves
them unchanged; exactly the TEXT/SHAPE lines increment the object counter,
and a successful object line implies the counter stayed within the cap. -/
lemma processLine_ok_state (st st2 : ParseState) (ln : Nat) (raw : Str)
    (h : processLine st ln raw = .ok st2) :
    st2.spec.fps = (lineFps? raw).getD st.spec.fps ∧
    st2.spec.duration = (lineDuration? raw).getD st.spec.duration ∧
    st2.object_count = st.object_count + (if isObjLine raw then 1 else 0) ∧
    (isObjLine raw = true → st.object_count + 1 ≤ MAX_OBJECTS) := by
  unfold processLine at h
  split at h
  · rename_i hskip
    injection h with h2
    subst h2
    obtain ⟨hf, hd, ho⟩ := lineClasses_skip raw hskip
    simp [hf, hd, ho]
  · rename_i hskip
    unfold processTokens at h
    split at h
    · rename_i heq
      injection h with h2
      subst h2
      obtain ⟨hf, hd, ho⟩ := lineClasses_blank raw hskip heq
      simp [hf, hd, ho]
    · rename_i t0 rest heq
      obtain ⟨hf, hd, ho⟩ := lineClasses raw t0 rest hskip heq
      split at h
      · exact Except.noConfusion h
      · split at h
        · -- BACKGROUND
          rename_i hcmd
          rw [hcmd] at hf hd ho
          rw [if_neg (by decide)] at hf
          rw [if_neg (by decide)] at hd
          have ho2 : isObjLine raw = false := by rw [ho]; decide
          dsimp only [] at h
          split at h <;> split at h <;>
            first
              | exact Except.noConfusion h
              | (injection h with h2; subst h2; simp [hf, hd, ho2])
        · rename_i hnb
          split at h
          · -- FPS
            rename_i hcmd
            rw [hcmd] at hf hd ho
            rw [if_pos rfl] at hf
            rw [if_neg (by decide)] at hd
            have ho2 : isObjLine raw = false := by rw [ho]; decide
            split at h
            · exact Except.noConfusion h
            · rename_i fps harg
              rw [harg] at hf
              split at h
              · exact Except.noConfusion h
              · injection h with h2
                subst h2
                simp [hf, hd, ho2]
          · rename_i hnf
            split at h
            · -- DURATION
              rename_i hcmd
              rw [hcmd] at hf hd ho
              rw [if_neg (by decide)] at hf
              rw [if_pos rfl] at hd
              have ho2 : isObjLine raw = false := by rw [ho]; decide
              split at h
              · exact Except.noConfusion h
              · rename_i d harg
                rw [harg] at hd
                split at h
                · exact Except.noConfusion h
                · injection h with h2
                  subst h2
                  simp [hf, hd, ho2]
            · rename_i hnd
              split at h
              · -- TEXT
                rename_i hcmd
                rw [hcmd] at hf hd ho
                rw [if_neg (by decide)] at hf
                rw [if_neg (by decide)] at hd
                have ho2 : isObjLine raw = true := by rw [ho]; decide
                split at h
                · exact Except.noConfusion h
                · rename_i hcap
                  split at h
                  · exact Except.noConfusion h
                  · injection h with h2
                    subst h2
                    refine ⟨by simp [hf], by simp [hd], by simp [ho2], fun _ => by omega⟩
              · rename_i hnt
                split at h
                · -- SHAPE
                  rename_i hcmd
                  rw [hcmd] at hf hd ho
                  rw [if_neg (by decide)] at hf
                  rw [if_neg (by decide)] at hd
                  have ho2 : isObjLine raw = true := by rw [ho]; decide
                  split at h
                  · exact Except.noConfusion h
                  · rename_i hcap
                    split at h
                    · exact Except.noConfusion h
                    · injection h with h2
                      subst h2
                      refine ⟨by simp [hf], by simp [hd], by simp [ho2], fun _ => by omega⟩
                · rename_i hns
                  split at h
                  · -- MOVE
                    rename_i hcmd
                    rw [hcmd] at hf hd ho
                    rw [if_neg (by decide)] at hf
                    rw [if_neg (by decide)] at hd
                    have ho2 : isObjLine raw = false := by rw [ho]; decide
                    split at h
                    · exact Except.noConfusion h
                    · injection h with h2
                      subst h2
                      simp [hf, hd, ho2]
                  · -- unreachable final else
                    rename_i hnm
                    injection h with h2
                    subst h2
                    rw [if_neg hnf] at hf
                    rw [if_neg hnd] at hd
                    have ho2 : isObjLine raw = false := by
                      rw [ho]
                      simp [hnt, hns]
                    simp [hf, hd, ho2]

lemma textLoop_nil (ln : Nat) (cmd : TextCommand) : textLoop ln [] cmd = .ok cmd := rfl

lemma shapeLoop_nil (ln : Nat) (cmd : ShapeCommand) : shapeLoop ln [] cmd = .ok cmd := rfl

lemma moveLoop_nil (ln : Nat) (cmd : MoveCommand) : moveLoop ln [] cmd = .ok cmd := rfl

lemma moveLoop_cons (ln : Nat) (kw0 : Str) (rest : List Str) (cmd : MoveCommand) :
    moveLoop ln (kw0 :: rest) cmd =
      (if upperTok kw0 = "TO".data then
        match rest with
        | arg :: rest2 =>
          match coordPair? arg with
          | .error _ => .error (.invalidSyntax ln)
          | .ok (some p) => moveLoop ln rest2 { cmd with to_x := p.1, to_y := p.2 }
          | .ok none => moveLoop ln rest2 cmd
        | [] => .ok cmd
      else if upperTok kw0 = "DUR".data then
        match rest with
        | arg :: rest2 =>
          match pyFloat? arg with
          | some d => moveLoop ln rest2 { cmd with duration := max (1/10) (min d MAX_DURATION) }
          | none => .error (.invalidSyntax ln)
        | [] => .ok cmd
      else if upperTok kw0 = "EASE".data then
        match rest with
        | arg :: rest2 =>
          let e := lowerTok arg
          moveLoop ln rest2 { cmd with ease := if ALLOWED_EASE_TYPES.contains e then e else "linear".data }
        | [] => .ok cmd
      else moveLoop ln rest cmd) := by
  cases rest with
  | nil => rfl
  | cons a1 r1 => rfl

/-- The TEXT keyword loop never raises the too-many-objects error. -/
lemma textLoop_no_tooMany (ln : Nat) (toks : List Str) (cmd : TextCommand) :
    ∀ n, textLoop ln toks cmd ≠ .error (.tooManyObjects n) := by
  induction toks, cmd using textLoop.induct ln <;> intro n hcon <;>
    first
      | (rw [textLoop_nil] at hcon; exact Except.noConfusion hcon)
      | (rw [textLoop_cons] at hcon; simp_all)

/-- The SHAPE keyword loop never raises the too-many-objects error. -/
lemma shapeLoop_no_tooMany (ln : Nat) (toks : List Str) (cmd : ShapeCommand) :
    ∀ n, shapeLoop ln toks cmd ≠ .error (.tooManyObjects n) := by
  induction toks, cmd using shapeLoop.induct ln <;> intro n hcon <;>
    first
      | (rw [shapeLoop_nil] at hcon; exact Except.noConfusion hcon)
      | (rw [shapeLoop_cons] at hcon; simp_all)

/-- The MOVE keyword loop never raises the too-many-objects error. -/
lemma moveLoop_no_tooMany (ln : Nat) (toks : List Str) (cmd : MoveCommand) :
    ∀ n, moveLoop ln toks cmd ≠ .error (.tooManyObjects n) := by
  induction toks, cmd using moveLoop.induct ln <;> intro n hcon <;>
    first
      | (rw [moveLoop_nil] at hcon; exact Except.noConfusion hcon)
      | (rw [moveLoop_cons] at hcon; simp_all)

lemma parse_text_no_tooMany (tokens : List Str) (ln : Nat) (n : Nat) :
    parse_text_command tokens ln ≠ .error (.tooManyObjects n) := by
  unfold parse_text_command
  cases tokens with
  | nil => intro hcon; injection hcon with h2; exact DSLError.noConfusion h2
  | cons t rest => exact textLoop_no_tooMany ln rest _ n

lemma parse_shape_no_tooMany (tokens : List Str) (ln : Nat) (n : Nat) :
    parse_shape_command tokens ln ≠ .error (.tooManyObjects n) := by
  unfold parse_shape_command
  cases tokens with
  | nil => intro hcon; injection hcon with h2; exact DSLError.noConfusion h2
  | cons t rest =>
    by_cases hs : ALLOWED_SHAPE_TYPES.contains (upperTok t) = true
    · show (if ALLOWED_SHAPE_TYPES.contains (upperTok t) = true then _ else _) ≠ _
      rw [if_pos hs]
      exact shapeLoop_no_tooMany ln rest _ n
    · show (if ALLOWED_SHAPE_TYPES.contains (upperTok t) = true then _ else _) ≠ _
      rw [if_neg hs]
      intro hcon
      injection hcon with h2
      exact DSLError.noConfusion h2

lemma parse_move_no_tooMany (tokens : List Str) (ln : Nat) (n : Nat) :
    parse_move_command tokens ln ≠ .error (.tooManyObjects n) := by
  unfold parse_move_command
  by_cases hl : tokens.length < 4
  · rw [if_pos hl]
    intro hcon
    injection hcon with h2
    exact DSLError.noConfusion h2
  · rw [if_neg hl]
    cases tokens with
    | nil =>
      intro hcon
      injection hcon with h2
      exact DSLError.noConfusion h2
    | cons t rest => exact moveLoop_no_tooMany ln rest _ n

/-- The only way one line raises the too-many-objects error: it is a
TEXT/SHAPE line, the error carries that line's number, and the incoming
counter is already at the cap. -/
lemma processLine_tooMany (st : ParseState) (ln n : Nat) (raw : Str)
    (h : processLine st ln raw = .error (.tooManyObjects n)) :
    n = ln ∧ isObjLine raw = true ∧ MAX_OBJECTS < st.object_count + 1 := by
  unfold processLine at h
  split at h
  · exact Except.noConfusion h
  · rename_i hskip
    unfold processTokens at h
    split at h
    · exact Except.noConfusion h
    · rename_i t0 rest heq
      obtain ⟨hf, hd, ho⟩ := lineClasses raw t0 rest hskip heq
      split at h
      · injection h with h2
        exact DSLError.noConfusion h2
      · split at h
        · -- BACKGROUND
          dsimp only [] at h
          split at h <;> split at h <;>
            first
              | exact Except.noConfusion h
              | (injection h with h2; exact DSLError.noConfusion h2)
        · split at h
          · -- FPS
            split at h
            · injection h with h2
              exact DSLError.noConfusion h2
            · split at h
              · injection h with h2
                exact DSLError.noConfusion h2
              · exact Except.noConfusion h
          · split at h
            · -- DURATION
              split at h
              · injection h with h2
                exact DSLError.noConfusion h2
              · split at h
                · injection h with h2
                  exact DSLError.noConfusion h2
                · exact Except.noConfusion h
            · split at h
              · -- TEXT
                rename_i hcmd
                rw [hcmd] at ho
                split at h
                · rename_i hcap
                  injection h with h2
                  injection h2 with h3
                  exact ⟨h3.symm, by rw [ho]; decide, hcap⟩
                · split at h
                  · rename_i e heq3
                    injection h with h2
                    subst h2
                    exact absurd heq3 (parse_text_no_tooMany rest ln n)
                  · exact Except.noConfusion h
              · split at h
                · -- SHAPE
                  rename_i hcmd
                  rw [hcmd] at ho
                  split at h
                  · rename_i hcap
                    injection h with h2
                    injection h2 with h3
                    exact ⟨h3.symm, by rw [ho]; decide, hcap⟩
                  · split at h
                    · rename_i e heq3
                      injection h with h2
                      subst h2
                      exact absurd heq3 (parse_shape_no_tooMany rest ln n)
                    · exact Except.noConfusion h
                · split at h
                  · -- MOVE
                    split at h
                    · rename_i e heq3
                      injection h with h2
                      subst h2
                      exact absurd heq3 (parse_move_no_tooMany rest ln n)
                    · exact Except.noConfusion h
                  · exact Except.noConfusion h

lemma enumFrom_snd (n : Nat) (l : List Str) : (List.enumFrom n l).map Prod.snd = l := by
  induction l generalizing n with
  | nil => rfl
  | cons a t ih => simp [List.enumFrom, ih]

/-- Accumulated effect of the line loop on fps, duration and the object
counter over any successfully processed line list. -/
lemma processLines_ok_state (L : List (Nat × Str)) : ∀ (st st' : ParseState),
    processLines L st = .ok st' →
    st'.spec.fps = (L.map Prod.snd).foldl (fun a l => (lineFps? l).getD a) st.spec.fps ∧
    st'.spec.duration = (L.map Prod.snd).foldl (fun a l => (lineDuration? l).getD a) st.spec.duration ∧
    st'.object_count = st.object_count + (L.map Prod.snd).countP isObjLine := by
  induction L with
  | nil =>
    intro st st' h
    injection h with h2
    subst h2
    simp
  | cons p rest ih =>
    intro st st' h
    obtain ⟨ln, l⟩ := p
    cases hp : processLine st ln l with
    | error e =>
      rw [processLines, hp] at h
      exact Except.noConfusion h
    | ok st2 =>
      rw [processLines, hp] at h
      have h2 : processLines rest st2 = .ok st' := h
      obtain ⟨hf, hd, hc, _⟩ := processLine_ok_state st st2 ln l hp
      obtain ⟨hf2, hd2, hc2⟩ := ih st2 st' h2
      refine ⟨?_, ?_, ?_⟩
      · rw [hf2, hf, List.map_cons, List.foldl_cons]
      · rw [hd2, hd, List.map_cons, List.foldl_cons]
      · rw [hc2, hc, List.map_cons, List.countP_cons]
        have hsnd : ((ln, l).2 : Str) = l := rfl
        rw [hsnd]
        omega

/-- The counter never leaves the cap along a successful run. -/
lemma processLines_count_le (L : List (Nat × Str)) : ∀ (st st' : ParseState),
    st.object_count ≤ MAX_OBJECTS → processLines L st = .ok st' →
    st'.object_count ≤ MAX_OBJECTS := by
  induction L with
  | nil =>
    intro st st' hle h
    injection h with h2
    subst h2
    exact hle
  | cons p rest ih =>
    intro st st' hle h
    obtain ⟨ln, l⟩ := p
    cases hp : processLine st ln l with
    | error e =>
      rw [processLines, hp] at h
      exact Except.noConfusion h
    | ok st2 =>
      rw [processLines, hp] at h
      have h2 : processLines rest st2 = .ok st' := h
      obtain ⟨_, _, hc, hcap⟩ := processLine_ok_state st st2 ln l hp
      refine ih st2 st' ?_ h2
      by_cases hobj : isObjLine l = true
      · have := hcap hobj
        rw [hc, if_pos hobj]
        omega
      · rw [hc, if_neg hobj]
        omega

/-- Any error of the line loop comes from one line, after an ok prefix. -/
lemma processLines_error_split (L : List (Nat × Str)) : ∀ (st : ParseState) (e : DSLError),
    processLines L st = .error e →
    ∃ L1 z L2 stm, L = L1 ++ z :: L2 ∧ processLines L1 st = .ok stm ∧
      processLine stm z.1 z.2 = .error e := by
  induction L with
  | nil =>
    intro st e h
    exact Except.noConfusion h
  | cons p rest ih =>
    intro st e h
    obtain ⟨ln, l⟩ := p
    cases hp : processLine st ln l with
    | error e2 =>
      rw [processLines, hp] at h
      have h2 : (Except.error e2 : Except DSLError ParseState) = .error e := h
      injection h2 with h3
      subst h3
      exact ⟨[], (ln, l), rest, st, rfl, rfl, hp⟩
    | ok st2 =>
      rw [processLines, hp] at h
      have h2 : processLines rest st2 = .error e := h
      obtain ⟨L1, z, L2, stm, hL, hok, herr⟩ := ih st2 e h2
      refine ⟨(ln, l) :: L1, z, L2, stm, by rw [hL]; rfl, ?_, herr⟩
      rw [processLines, hp]
      exact hok

lemma processLines_append (L1 : List (Nat × Str)) : ∀ (L2 : List (Nat × Str)) (st : ParseState),
    processLines (L1 ++ L2) st =
      match processLines L1 st with
      | .ok st2 => processLines L2 st2
      | .error e => .error e := by
  induction L1 with
  | nil => intro L2 st; rfl
  | cons p rest ih =>
    intro L2 st
    obtain ⟨ln, l⟩ := p
    rw [List.cons_append, processLines, processLines]
    cases hp : processLine st ln l with
    | error e => rfl
    | ok st2 => exact ih L2 st2

lemma parse_dsl_of_error (script : Str) (e : DSLError)
    (h : processLines (enumLines script) initState = .error e) :
    parse_dsl script = .error e := by
  unfold parse_dsl
  rw [h]

lemma parse_dsl_tooMany_inv (script : Str) (n : Nat)
    (h : parse_dsl script = .error (.tooManyObjects n)) :
    processLines (enumLines script) initState = .error (.tooManyObjects n) := by
  unfold parse_dsl at h
  cases hp : processLines (enumLines script) initState with
  | error e =>
    rw [hp] at h
    have h2 : (Except.error e : Except DSLError AnimationSpec) = .error (.tooManyObjects n) := h
    injection h2 with h3
    rw [h3]
  | ok st =>
    rw [hp] at h
    dsimp only [] at h
    exfalso
    split at h
    · injection h with h2
      exact DSLError.noConfusion h2
    · exact Except.noConfusion h

/-- A TEXT/SHAPE line reached with the counter at the cap raises the
too-many-objects error carrying that line's number. -/
lemma processLine_obj_cap (st : ParseState) (ln : Nat) (raw : Str)
    (hobj : isObjLine raw = true) (hcap : MAX_OBJECTS < st.object_count + 1) :
    processLine st ln raw = .error (.tooManyObjects ln) := by
  unfold isObjLine at hobj
  split at hobj
  · exact absurd hobj (by simp)
  · rename_i hskip
    split at hobj
    · exact absurd hobj (by simp)
    · rename_i t0 rest heq
      unfold processLine
      rw [if_neg hskip, heq]
      simp only [processTokens]
      rcases (Bool.or_eq_true _ _).mp hobj with hT | hS
      · have hcmd : upperTok t0 = "TEXT".data := of_decide_eq_true hT
        rw [hcmd]
        rw [if_neg (by decide), if_neg (by decide), if_neg (by decide), if_neg (by decide),
          if_pos rfl, if_pos hcap]
      · have hcmd : upperTok t0 = "SHAPE".data := of_decide_eq_true hS
        rw [hcmd]
        rw [if_neg (by decide), if_neg (by decide), if_neg (by decide), if_neg (by decide),
          if_neg (by decide), if_pos rfl, if_pos hcap]

/-- C4: for every document whose line loop completes without an earlier
error, the final state's fps and duration are the values after the last
FPS/DURATION line (defaults 24 and 3 when absent); parsing then raises the
too-many-frames error if and only if int(final_fps * final_duration)
exceeds MAX_FRAMES — one check, after the whole document — and otherwise
returns the spec. -/
theorem C4_frames_check (script : Str) (st : ParseState)
    (h : processLines (enumLines script) initState = .ok st) :
    st.spec.fps = finalFps ((pyStrip script).splitOn '\n') ∧
    st.spec.duration = finalDuration ((pyStrip script).splitOn '\n') ∧
    (parse_dsl script =
        .error (.tooManyFrames (pyTrunc ((finalFps ((pyStrip script).splitOn '\n') : Rat) *
          finalDuration ((pyStrip script).splitOn '\n')))) ↔
      MAX_FRAMES < pyTrunc ((finalFps ((pyStrip script).splitOn '\n') : Rat) *
        finalDuration ((pyStrip script).splitOn '\n'))) ∧
    (parse_dsl script = .ok st.spec ↔
      pyTrunc ((finalFps ((pyStrip script).splitOn '\n') : Rat) *
        finalDuration ((pyStrip script).splitOn '\n')) ≤ MAX_FRAMES) := by
  obtain ⟨hf, hd, _⟩ := processLines_ok_state (enumLines script) initState st h
  rw [show (enumLines script).map Prod.snd = (pyStrip script).splitOn '\n' from by
    rw [enumLines, enumFrom_snd]] at hf hd
  have hf2 : st.spec.fps = finalFps ((pyStrip script).splitOn '\n') := hf
  have hd2 : st.spec.duration = finalDuration ((pyStrip script).splitOn '\n') := hd
  refine ⟨hf2, hd2, ?_, ?_⟩
  · unfold parse_dsl
    rw [h]
    dsimp only []
    rw [← hf2, ← hd2]
    by_cases hc : MAX_FRAMES < pyTrunc ((st.spec.fps : Rat) * st.spec.duration)
    · rw [if_pos hc]
      exact ⟨fun _ => hc, fun _ => rfl⟩
    · rw [if_neg hc]
      constructor
      · intro hcon
        exact absurd hcon (by simp)
      · intro hlt
        exact absurd hlt hc
  · unfold parse_dsl
    rw [h]
    dsimp only []
    rw [← hf2, ← hd2]
    by_cases hc : MAX_FRAMES < pyTrunc ((st.spec.fps : Rat) * st.spec.duration)
    · rw [if_pos hc]
      constructor
      · intro hcon
        exact absurd hcon (by simp)
      · intro hle
        exact absurd hc (by omega)
    · rw [if_neg hc]
      exact ⟨fun _ => by omega, fun _ => rfl⟩

def c4script : Str := "FPS 10\nDURATION 2.5".data

def c4state : ParseState := { spec := { fps := 10, duration := 5/2 }, object_count := 0 }

/-- Witness for C4 at a concrete document. -/
theorem C4_witness :
    parse_dsl c4script = .ok c4state.spec ∧
    c4state.spec.fps = finalFps ((pyStrip c4script).splitOn '\n') := by
  have hpl : processLines (enumLines c4script) initState = .ok c4state := by
    with_unfolding_all decide
  have h := C4_frames_check c4script c4state hpl
  exact ⟨h.2.2.2.mpr (by with_unfolding_all decide), h.1⟩

/-- C6: each TEXT/SHAPE command line increments the object counter and no
other line does (the final counter is exactly the number of such lines); a
document with at most 50 of them never raises the too-many-objects error;
any raised too-many-objects error carries the line number of the 51st
TEXT/SHAPE line and aborts there; and conversely a TEXT/SHAPE line reached
with 50 objects already counted makes parsing fail with that line's
number. -/
theorem C6_object_cap (script : Str) :
    (∀ st', processLines (enumLines script) initState = .ok st' →
        st'.object_count = ((pyStrip script).splitOn '\n').countP isObjLine) ∧
    (((pyStrip script).splitOn '\n').countP isObjLine ≤ MAX_OBJECTS →
        ∀ n, parse_dsl script ≠ .error (.tooManyObjects n)) ∧
    (∀ n, parse_dsl script = .error (.tooManyObjects n) →
        ∃ L1 z L2, enumLines script = L1 ++ z :: L2 ∧ z.1 = n ∧ isObjLine z.2 = true ∧
          (L1.map Prod.snd).countP isObjLine = MAX_OBJECTS) ∧
    (∀ (L1 : List (Nat × Str)) (z : Nat × Str) (L2 : List (Nat × Str)) (stm : ParseState),
        enumLines script = L1 ++ z :: L2 →
        processLines L1 initState = .ok stm → stm.object_count = MAX_OBJECTS →
        isObjLine z.2 = true →
        parse_dsl script = .error (.tooManyObjects z.1)) := by
  have key : ∀ n, parse_dsl script = .error (.tooManyObjects n) →
      ∃ L1 z L2, enumLines script = L1 ++ z :: L2 ∧ z.1 = n ∧ isObjLine z.2 = true ∧
        (L1.map Prod.snd).countP isObjLine = MAX_OBJECTS := by
    intro n herr
    have hpl := parse_dsl_tooMany_inv script n herr
    obtain ⟨L1, z, L2, stm, hL, hok, hline⟩ := processLines_error_split _ _ _ hpl
    obtain ⟨hn, hobj, hcap⟩ := processLine_tooMany stm z.1 n z.2 hline
    have hstate := (processLines_ok_state L1 initState stm hok).2.2
    have hle := processLines_count_le L1 initState stm (by decide) hok
    refine ⟨L1, z, L2, hL, hn.symm, hobj, ?_⟩
    have h0 : initState.object_count = 0 := rfl
    rw [h0] at hstate
    unfold MAX_OBJECTS at hcap hle ⊢
    omega
  refine ⟨?_, ?_, key, ?_⟩
  · intro st' h
    have := (processLines_ok_state (enumLines script) initState st' h).2.2
    rw [show (enumLines script).map Prod.snd = (pyStrip script).splitOn '\n' from by
      rw [enumLines, enumFrom_snd]] at this
    have h0 : initState.object_count = 0 := rfl
    rw [h0] at this
    simpa using this
  · intro hle n hcon
    obtain ⟨L1, z, L2, hL, _, hobj, hcount⟩ := key n hcon
    have hfull : ((pyStrip script).splitOn '\n').countP isObjLine =
        ((enumLines script).map Prod.snd).countP isObjLine := by
      rw [enumLines, enumFrom_snd]
    rw [hL, List.map_append, List.countP_append, List.map_cons, List.countP_cons, hobj] at hfull
    rw [hcount] at hfull
    simp at hfull
    unfold MAX_OBJECTS at hle hfull
    omega
  · intro L1 z L2 stm hL hok hcount hobj
    obtain ⟨zln, zraw⟩ := z
    have hline : processLine stm zln zraw = .error (.tooManyObjects zln) :=
      processLine_obj_cap stm zln zraw hobj (by rw [hcount]; omega)
    have herr : processLines (enumLines script) initState = .error (.tooManyObjects zln) := by
      rw [hL, processLines_append, hok]
      show processLines ((zln, zraw) :: L2) stm = _
      rw [processLines, hline]
    exact parse_dsl_of_error script _ herr

def c6script : Str := ("TEXT \"a\"\nMOVE x TO 1,1 DUR 1").data

/-- Witness for C6: a document with one TEXT line never hits the object cap. -/
theorem C6_witness : parse_dsl c6script ≠ .error (.tooManyObjects 1) :=
  (C6_object_cap c6script).2.1 (by decide) 1
